import Mathlib

/-!
Verification development for the SwazDataRecovery peer-to-peer file-transfer
protocol.  The definitions below are a shallow embedding of the repository's
two `FileTransferManager` variants (the flow-controlled streaming variant in
`src/services/webrtcService.ts`, embedded in namespace `Streaming`, and the
per-chunk acknowledged variant in `src/unnamed/part_001`, embedded in
namespace `Acked`), of the signaling server's room handling
(`src/server/index.js`, namespace `Server`), and of the page component's
signaling/teardown glue (`src/components/FileTransferPage.tsx`, namespace
`Page`).

Modelling conventions:
* Byte sequences (`ArrayBuffer`/`Blob` contents) are `List Nat`.
* SHA-256 (`calculateSHA256`) is an abstract parameter `hash : Bytes → Nat`;
  the code only ever compares digests for equality, so any function models it.
* The JavaScript `Map` of in-flight incoming transfers is an association list
  with `Map.get`/`Map.set`/`Map.delete` semantics.
* UI callbacks (`onStatusUpdate`, `onFileProgress`, `onFileReceived`,
  `onFileSent`), outbound data-channel messages and the fatal
  `webRTCManager.disconnect()` call are recorded as an ordered list of
  `Effect`s returned next to the updated state.
* `encryptionPipeline.encrypt` returning non-null is modelled by a boolean
  `encryptOk` supplied with the step (on success the ciphertext is opaque and
  irrelevant, so the wire effect carries the plaintext chunk).
* Chunk indices within the declared range (`chunkIndex < totalChunks`) are
  modelled exactly; JavaScript's sparse-array growth for out-of-range indices
  is not reproduced (no peer following the protocol produces such an index).
-/

/-- Byte sequences: an `ArrayBuffer` is a list of byte values. -/
abbrev Bytes := List Nat

/-- `file-metadata` payload (`FileMetadata` in both variants):
`{ fileId, name, type, size, totalChunks, fullFileChecksum }`.
The MIME `type` string plays no role in any claim and is omitted;
the SHA-256 digest is an abstract `Nat`. -/
structure FileMetadata where
  fileId : String
  name : String
  size : Nat
  totalChunks : Nat
  fullFileChecksum : Nat
deriving Repr, DecidableEq

/-- `chunk-metadata` payload. The streaming variant has no per-chunk
checksum; the acknowledged variant adds one — modelled by an `Option Nat`. -/
structure ChunkMetadata where
  fileId : String
  chunkIndex : Nat
  size : Nat
  checksum : Option Nat
deriving Repr, DecidableEq

/-- Observable effects of a protocol step, in emission order: UI callbacks,
outbound wire messages, and the fatal connection teardown. -/
inductive Effect where
  | statusInfo (msg : String)
  | statusError (msg : String)
  | statusSuccess (msg : String)
  | fileProgress (fileId : String) (fileName : String) (progress : Nat)
  | fileReceived (name : String) (size : Nat) (content : Bytes)
  | fileSent (name : String)
  | wireFileMetadata (md : FileMetadata)
  | wireChunkMetadata (cm : ChunkMetadata)
  | wireChunkBinary (fileId : String) (chunkIndex : Nat) (data : Bytes)
  | wireChunkAck (fileId : String) (chunkIndex : Nat)
  | wireFileReceivedAck (fileId : String)
  | disconnect
deriving Repr, DecidableEq

/-- A file handed to `sendFiles`: its name and plaintext content
(`File.size` is `content.length`). -/
structure FileData where
  name : String
  content : Bytes
deriving Repr, DecidableEq

/-- `Map.get`: first binding of the key, if any. -/
def mapLookup {β : Type} (m : List (String × β)) (k : String) : Option β :=
  (m.find? (fun p => p.1 == k)).map (fun p => p.2)

/-- `Map.set`: replace the binding in place if the key is present,
else append a new binding. -/
def mapInsert {β : Type} (m : List (String × β)) (k : String) (v : β) :
    List (String × β) :=
  if (m.find? (fun p => p.1 == k)).isSome then
    m.map (fun p => if p.1 == k then (k, v) else p)
  else
    m ++ [(k, v)]

/-- `Map.delete`: drop every binding of the key. -/
def mapErase {β : Type} (m : List (String × β)) (k : String) :
    List (String × β) :=
  m.filter (fun p => !(p.1 == k))

/-- `this.chunkSize` / `CHUNK_SIZE`: 64 KiB. -/
def chunkSize : Nat := 64 * 1024

/-- `Math.ceil(file.size / chunkSize)` on natural numbers. -/
def totalChunksOf (size : Nat) : Nat := (size + chunkSize - 1) / chunkSize

/-- `file.slice(i * chunkSize, (i + 1) * chunkSize)` as bytes. -/
def sliceChunk (content : Bytes) (i : Nat) : Bytes :=
  (content.drop (i * chunkSize)).take chunkSize

/-- `Math.round((r / t) * 100)` for the progress percentage: JavaScript
rounds half away from zero (here: half up, everything is nonnegative).
`t = 0` (a NaN in JavaScript) is mapped to `0`; no protocol path computes a
progress percentage with `totalChunks = 0`. -/
def roundPct (r t : Nat) : Nat :=
  if t = 0 then 0 else (200 * r + t) / (2 * t)

/-- `array.indexOf(false)` on a boolean array: index of the first `false`
entry, `none` for JavaScript's `-1`. -/
def indexOfFalse : List Bool → Option Nat
  | [] => none
  | b :: t => if b = false then some 0 else (indexOfFalse t).map (fun n => n + 1)

/-- The metadata built by `startNextFileTransfer` (identical in both
variants): `fileId` is `` `${file.name}-${file.size}-${Date.now()}` ``,
`totalChunks` is `Math.ceil(file.size / chunkSize)`, `fullFileChecksum` is
`await calculateSHA256(file)`.  `now` is the `Date.now()` sample. -/
def mkMetadata (hash : Bytes → Nat) (f : FileData) (now : Nat) : FileMetadata :=
  { fileId := f.name ++ "-" ++ toString f.content.length ++ "-" ++ toString now
    name := f.name
    size := f.content.length
    totalChunks := totalChunksOf f.content.length
    fullFileChecksum := hash f.content }

namespace Streaming

/-- `ReceivingFileState` of `src/services/webrtcService.ts`: declared
metadata, the chunk-slot array (`new Array(totalChunks).fill(null)`, a slot
becomes `some bytes` once written), and `receivedChunksCount`. -/
structure ReceivingFileState where
  metadata : FileMetadata
  chunks : List (Option Bytes)
  receivedChunksCount : Nat
deriving Repr, DecidableEq

/-- The receiver side of the manager: `receivingFiles : Map<string, ReceivingFileState>`. -/
structure ReceiverState where
  receivingFiles : List (String × ReceivingFileState)
deriving Repr, DecidableEq

/-- `handleFileMetadata` (webrtcService.ts:236-244): registers a fresh
`ReceivingFileState` under `metadata.fileId` with all slots empty, then
emits a status and a 0% progress event. -/
def handleFileMetadata (s : ReceiverState) (md : FileMetadata) :
    ReceiverState × List Effect :=
  ({ receivingFiles :=
      mapInsert s.receivingFiles md.fileId
        { metadata := md
          chunks := List.replicate md.totalChunks none
          receivedChunksCount := 0 } },
   [Effect.statusInfo ("Receiving metadata for " ++ md.name),
    Effect.fileProgress md.fileId md.name 0])

/-- `reconstructFile` (webrtcService.ts:264-288): if the state is missing or
a slot is empty, report missing chunks; otherwise concatenate the slots,
recompute the whole-file checksum and compare with the declared one.  On a
match: emit the assembled file (`URL.createObjectURL` is modelled by the
assembled bytes), send `file-received-ack`, and delete the map entry.  On a
mismatch: only report the error — the entry is NOT deleted. -/
def reconstructFile (hash : Bytes → Nat) (s : ReceiverState) (fileId : String) :
    ReceiverState × List Effect :=
  match mapLookup s.receivingFiles fileId with
  | none =>
      (s, [Effect.statusError "File reconstruction failed: missing chunks."])
  | some fs =>
      if fs.chunks.contains none then
        (s, [Effect.statusError
              ("File reconstruction for " ++ fs.metadata.name ++
               " failed: missing chunks.")])
      else
        let fileBytes := (fs.chunks.map (fun c => c.getD [])).flatten
        if hash fileBytes = fs.metadata.fullFileChecksum then
          ({ receivingFiles := mapErase s.receivingFiles fileId },
           [Effect.fileReceived fs.metadata.name fs.metadata.size fileBytes,
            Effect.wireFileReceivedAck fileId])
        else
          (s, [Effect.statusError
                ("Final file checksum mismatch for " ++ fs.metadata.name ++
                 ". Transfer failed.")])

/-- `handleChunkData` (webrtcService.ts:246-262): ignore chunks of unknown
`fileId`; write the slot and bump the count only if the slot is still empty
(`if (!fileState.chunks[chunkIndex])`); emit progress; reconstruct once the
count reaches `totalChunks`. -/
def handleChunkData (hash : Bytes → Nat) (s : ReceiverState)
    (decryptedChunkData : Bytes) (metadata : ChunkMetadata) :
    ReceiverState × List Effect :=
  match mapLookup s.receivingFiles metadata.fileId with
  | none => (s, [])
  | some fs =>
      let fs1 :=
        if fs.chunks.getD metadata.chunkIndex none = none then
          { fs with
            chunks := fs.chunks.set metadata.chunkIndex (some decryptedChunkData)
            receivedChunksCount := fs.receivedChunksCount + 1 }
        else fs
      let s1 : ReceiverState :=
        { receivingFiles := mapInsert s.receivingFiles metadata.fileId fs1 }
      let ev := Effect.fileProgress metadata.fileId fs1.metadata.name
                  (roundPct fs1.receivedChunksCount fs1.metadata.totalChunks)
      if fs1.receivedChunksCount = fs1.metadata.totalChunks then
        let r := reconstructFile hash s1 metadata.fileId
        (r.1, ev :: r.2)
      else
        (s1, [ev])

/-- `HIGH_WATER_MARK` (webrtcService.ts:7): 15 MiB. -/
def HIGH_WATER_MARK : Nat := 15 * 1024 * 1024

/-- `LOW_WATER_MARK` (webrtcService.ts:8): 8 MiB. -/
def LOW_WATER_MARK : Nat := 8 * 1024 * 1024

/-- `setDataChannel` sets `dataChannel.bufferedAmountLowThreshold = LOW_WATER_MARK`
(webrtcService.ts:85): the transport's low-watermark event fires when the
outbound buffer drops to or below this many bytes. -/
def bufferedAmountLowThreshold : Nat := LOW_WATER_MARK

/-- Control position of the (single) `streamFile` coroutine for the active
outgoing file: `ready` = about to run the next loop iteration;
`waitingForBuffer` = suspended inside `waitForBufferToClear()` awaiting the
`bufferedamountlow` event, with the current chunk still unsent. -/
inductive LoopMode where
  | ready
  | waitingForBuffer
deriving Repr, DecidableEq

/-- `SendingFileState` of webrtcService.ts plus the coroutine position of
the `streamFile` loop that is driving it. -/
structure SendingFileState where
  file : FileData
  metadata : FileMetadata
  sentChunksCount : Nat
  mode : LoopMode
deriving Repr, DecidableEq

/-- Sender side of the streaming-variant manager: the FIFO `filesToSend`
queue, the single active transfer, and the `isPaused` flag. -/
structure SenderState where
  filesToSend : List FileData
  sendingFileState : Option SendingFileState
  isPaused : Bool
deriving Repr, DecidableEq

/-- The `fileId` of the active outgoing transfer, if any. -/
def activeFileId (s : SenderState) : Option String :=
  s.sendingFileState.map (fun st => st.metadata.fileId)

/-- `startNextFileTransfer` (webrtcService.ts:112-139): an empty queue
clears the active transfer and emits the terminal success status; otherwise
the queue head is dequeued (`this.filesToSend.shift()`), its metadata built
and sent, and the fresh `streamFile` loop starts at chunk 0. -/
def startNextFileTransfer (hash : Bytes → Nat) (now : Nat) (s : SenderState) :
    SenderState × List Effect :=
  match s.filesToSend with
  | [] =>
      ({ s with sendingFileState := none },
       [Effect.statusSuccess "All files have been sent successfully!"])
  | f :: rest =>
      let md := mkMetadata hash f now
      ({ s with
          filesToSend := rest
          sendingFileState := some
            { file := f, metadata := md, sentChunksCount := 0, mode := LoopMode.ready } },
       [Effect.wireFileMetadata md,
        Effect.statusInfo ("Sending metadata for " ++ f.name ++ "...")])

/-- The tail of one `streamFile` loop iteration (webrtcService.ts:164-184),
after the pause/cancel/backpressure checks: slice chunk `i`, encrypt it —
`encryptOk = false` models `encrypt` returning `null`, which reports a fatal
error and calls `this.webRTCManager.disconnect()` — otherwise send
`chunk-metadata`, send the binary frame, bump `sentChunksCount` and report
progress. -/
def sendCurrentChunk (s : SenderState) (st : SendingFileState)
    (encryptOk : Bool) : SenderState × List Effect :=
  let i := st.sentChunksCount
  let data := sliceChunk st.file.content i
  if encryptOk then
    let st1 := { st with sentChunksCount := i + 1, mode := LoopMode.ready }
    ({ s with sendingFileState := some st1 },
     [Effect.wireChunkMetadata
        { fileId := st.metadata.fileId, chunkIndex := i
          size := data.length, checksum := none },
      Effect.wireChunkBinary st.metadata.fileId i data,
      Effect.fileProgress st.metadata.fileId st.metadata.name
        (roundPct (i + 1) st.metadata.totalChunks)])
  else
    (s, [Effect.statusError
          ("Encryption failed for chunk " ++ toString (i + 1) ++ " of " ++
           st.metadata.name ++ "."),
     Effect.disconnect])

/-- One iteration of the `streamFile` loop (webrtcService.ts:141-186), with
`bufferedAmount` the transport's outbound buffer occupancy sampled at the
backpressure check.  No-op when there is no active transfer (the loop has
returned), when the loop index has reached `totalChunks` (the loop has
exited), when paused (the loop spins in the `while (this.isPaused)` sleep),
or when the coroutine is parked in `waitForBufferToClear` (it is not at the
loop head).  If `bufferedAmount > HIGH_WATER_MARK` the iteration suspends
before sending anything; otherwise the current chunk is processed. -/
def streamFileStep (s : SenderState) (bufferedAmount : Nat)
    (encryptOk : Bool) : SenderState × List Effect :=
  match s.sendingFileState with
  | none => (s, [])
  | some st =>
      if st.mode = LoopMode.waitingForBuffer then (s, [])
      else if st.sentChunksCount ≥ st.metadata.totalChunks then (s, [])
      else if s.isPaused then (s, [])
      else if bufferedAmount > HIGH_WATER_MARK then
        let st1 := { st with mode := LoopMode.waitingForBuffer }
        ({ s with sendingFileState := some st1 }, [])
      else
        sendCurrentChunk s st encryptOk

/-- The `bufferedamountlow` event resolving `waitForBufferToClear`
(webrtcService.ts:188-201): the suspended iteration continues and sends the
pending chunk.  The pause flag is NOT re-checked here — the loop checks it
only at the head of the next iteration — and when no iteration is suspended
the event has no listener and does nothing. -/
def bufferedAmountLowEvent (s : SenderState) (encryptOk : Bool) :
    SenderState × List Effect :=
  match s.sendingFileState with
  | none => (s, [])
  | some st =>
      if st.mode = LoopMode.waitingForBuffer then
        sendCurrentChunk s st encryptOk
      else (s, [])

/-- `pause` (webrtcService.ts:88-91). -/
def pause (s : SenderState) : SenderState × List Effect :=
  ({ s with isPaused := true }, [Effect.statusInfo "Transfer paused."])

/-- `resume` (webrtcService.ts:93-98): only acts when a transfer is active
and paused; the streaming loop then continues by itself from
`sentChunksCount`. -/
def resume (s : SenderState) : SenderState × List Effect :=
  if s.sendingFileState.isNone ∨ s.isPaused = false then (s, [])
  else
    ({ s with isPaused := false }, [Effect.statusInfo "Transfer resumed."])

/-- `sendFiles` (webrtcService.ts:100-110), with the encryption pipeline
already set: an empty selection is ignored; otherwise the queue is replaced
and, if no transfer is active, the first file is started. -/
def sendFiles (hash : Bytes → Nat) (now : Nat) (s : SenderState)
    (files : List FileData) : SenderState × List Effect :=
  if files.isEmpty then (s, [])
  else
    let s1 := { s with filesToSend := files }
    if s1.sendingFileState.isNone then startNextFileTransfer hash now s1
    else (s1, [])

/-- `handleFileReceivedAck` (webrtcService.ts:290-296): only an ack for the
active transfer counts; it reports the file as sent and immediately starts
the next queued file. -/
def handleFileReceivedAck (hash : Bytes → Nat) (now : Nat) (s : SenderState)
    (fileId : String) : SenderState × List Effect :=
  match s.sendingFileState with
  | none => (s, [])
  | some st =>
      if st.metadata.fileId = fileId then
        let r := startNextFileTransfer hash now s
        (r.1,
         Effect.statusSuccess ("Peer confirmed receipt of " ++ st.file.name ++ ".") ::
         Effect.fileSent st.file.name :: r.2)
      else (s, [])

/-- Labels of the streaming sender transition system: everything the
environment can do to the manager. -/
inductive SLabel where
  | sendFiles (files : List FileData) (now : Nat)
  | streamStep (bufferedAmount : Nat) (encryptOk : Bool)
  | bufferLow (encryptOk : Bool)
  | pause
  | resume
  | fileReceivedAck (fileId : String) (now : Nat)
deriving Repr, DecidableEq

/-- One labelled step of the streaming sender. -/
def step (hash : Bytes → Nat) (s : SenderState) :
    SLabel → SenderState × List Effect
  | SLabel.sendFiles files now => sendFiles hash now s files
  | SLabel.streamStep buffered encryptOk => streamFileStep s buffered encryptOk
  | SLabel.bufferLow encryptOk => bufferedAmountLowEvent s encryptOk
  | SLabel.pause => pause s
  | SLabel.resume => resume s
  | SLabel.fileReceivedAck fileId now => handleFileReceivedAck hash now s fileId

/-- Run a list of labelled steps, accumulating all emitted effects. -/
def run (hash : Bytes → Nat) (s : SenderState) :
    List SLabel → SenderState × List Effect
  | [] => (s, [])
  | l :: ls =>
      let r := step hash s l
      let r2 := run hash r.1 ls
      (r2.1, r.2 ++ r2.2)

end Streaming

namespace Acked

/-- `ReceivingFileState` of `src/unnamed/part_001` (identical shape to the
streaming variant's). -/
structure ReceivingFileState where
  metadata : FileMetadata
  chunks : List (Option Bytes)
  receivedChunksCount : Nat
deriving Repr, DecidableEq

/-- Receiver side of the acknowledged-variant manager. -/
structure ReceiverState where
  receivingFiles : List (String × ReceivingFileState)
deriving Repr, DecidableEq

/-- `handleFileMetadata` (part_001:225-233), identical to the streaming
variant's. -/
def handleFileMetadata (s : ReceiverState) (md : FileMetadata) :
    ReceiverState × List Effect :=
  ({ receivingFiles :=
      mapInsert s.receivingFiles md.fileId
        { metadata := md
          chunks := List.replicate md.totalChunks none
          receivedChunksCount := 0 } },
   [Effect.statusInfo ("Receiving metadata for " ++ md.name),
    Effect.fileProgress md.fileId md.name 0])

/-- `reconstructFile` (part_001:259-283), identical to the streaming
variant's: on a whole-file checksum mismatch only an error is reported, the
map entry is NOT deleted. -/
def reconstructFile (hash : Bytes → Nat) (s : ReceiverState) (fileId : String) :
    ReceiverState × List Effect :=
  match mapLookup s.receivingFiles fileId with
  | none =>
      (s, [Effect.statusError "File reconstruction failed: missing chunks."])
  | some fs =>
      if fs.chunks.contains none then
        (s, [Effect.statusError
              ("File reconstruction for " ++ fs.metadata.name ++
               " failed: missing chunks.")])
      else
        let fileBytes := (fs.chunks.map (fun c => c.getD [])).flatten
        if hash fileBytes = fs.metadata.fullFileChecksum then
          ({ receivingFiles := mapErase s.receivingFiles fileId },
           [Effect.fileReceived fs.metadata.name fs.metadata.size fileBytes,
            Effect.wireFileReceivedAck fileId])
        else
          (s, [Effect.statusError
                ("Final file checksum mismatch for " ++ fs.metadata.name ++
                 ". Transfer failed.")])

/-- `handleChunkData` (part_001:235-257): ignore chunks of unknown `fileId`;
recompute the per-chunk checksum and compare with the declared one — on a
mismatch only report it and await retransmission; on a match write the slot
only if still empty, always send `chunk-ack`, emit progress, and reconstruct
once the count reaches `totalChunks`. -/
def handleChunkData (hash : Bytes → Nat) (s : ReceiverState)
    (decryptedChunkData : Bytes) (metadata : ChunkMetadata) :
    ReceiverState × List Effect :=
  match mapLookup s.receivingFiles metadata.fileId with
  | none => (s, [])
  | some fs =>
      if some (hash decryptedChunkData) = metadata.checksum then
        let fs1 :=
          if fs.chunks.getD metadata.chunkIndex none = none then
            { fs with
              chunks := fs.chunks.set metadata.chunkIndex (some decryptedChunkData)
              receivedChunksCount := fs.receivedChunksCount + 1 }
          else fs
        let s1 : ReceiverState :=
          { receivingFiles := mapInsert s.receivingFiles metadata.fileId fs1 }
        let evs := [Effect.wireChunkAck metadata.fileId metadata.chunkIndex,
                    Effect.fileProgress metadata.fileId fs1.metadata.name
                      (roundPct fs1.receivedChunksCount fs1.metadata.totalChunks)]
        if fs1.receivedChunksCount = fs1.metadata.totalChunks then
          let r := reconstructFile hash s1 metadata.fileId
          (r.1, evs ++ r.2)
        else
          (s1, evs)
      else
        (s, [Effect.statusError
              ("Checksum mismatch for chunk " ++ toString metadata.chunkIndex ++
               " of " ++ fs.metadata.name ++ ". Awaiting retransmission.")])

/-- `RETRANSMISSION_TIMEOUT` (part_001:6) is 5000 ms; only the identity of a
scheduled timer matters here, not real time. -/
def RETRANSMISSION_TIMEOUT : Nat := 5000

/-- A pending `window.setTimeout` scheduled by `sendChunk`, together with
the values its callback closed over. -/
structure TimerEntry where
  id : Nat
  fileId : String
  chunkIndex : Nat
  fileName : String
deriving Repr, DecidableEq

/-- `SendingFileState` of part_001: the pre-sliced chunks, the per-chunk
acknowledgement bitmap, and the per-chunk retransmission-timer slots. -/
structure SendingFileState where
  file : FileData
  metadata : FileMetadata
  chunks : List Bytes
  acknowledgedChunks : List Bool
  retransmissionTimers : List (Option Nat)
deriving Repr, DecidableEq

/-- Sender side of the acknowledged-variant manager, together with the
browser's set of still-pending timers (`liveTimers`): `window.setTimeout`
registers a timer there, `clearTimeout` and firing remove it.  A timer id
can stay pending without being recorded in any `retransmissionTimers` slot —
the slot is simply overwritten when `sendChunk` re-sends that index. -/
structure SenderState where
  filesToSend : List FileData
  sendingFileState : Option SendingFileState
  isPaused : Bool
  liveTimers : List TimerEntry
  nextTimerId : Nat
deriving Repr, DecidableEq

/-- `sendChunk` (part_001:162-189): no-op without an active transfer, for an
index at or beyond `totalChunks`, or while paused.  Encrypt the chunk —
`null` (modelled `encryptOk = false`) reports a per-chunk error and returns
WITHOUT disconnecting — otherwise send `chunk-metadata` (with per-chunk
checksum) and the binary frame, then schedule a retransmission timer and
record its id in the chunk's timer slot (overwriting the slot). -/
def sendChunk (hash : Bytes → Nat) (s : SenderState) (chunkIndex : Nat)
    (encryptOk : Bool) : SenderState × List Effect :=
  match s.sendingFileState with
  | none => (s, [])
  | some sf =>
      if chunkIndex ≥ sf.metadata.totalChunks ∨ s.isPaused then (s, [])
      else
        let data := sf.chunks.getD chunkIndex []
        let cks := hash data
        if encryptOk then
          let tid := s.nextTimerId
          let sf1 := { sf with
            retransmissionTimers := sf.retransmissionTimers.set chunkIndex (some tid) }
          ({ s with
              sendingFileState := some sf1
              liveTimers := s.liveTimers ++
                [{ id := tid, fileId := sf.metadata.fileId
                   chunkIndex := chunkIndex, fileName := sf.metadata.name }]
              nextTimerId := tid + 1 },
           [Effect.wireChunkMetadata
              { fileId := sf.metadata.fileId, chunkIndex := chunkIndex
                size := data.length, checksum := some cks },
            Effect.wireChunkBinary sf.metadata.fileId chunkIndex data])
        else
          (s, [Effect.statusError
                ("Encryption failed for chunk " ++ toString (chunkIndex + 1) ++
                 " of " ++ sf.metadata.name ++ ".")])

/-- `pause` (part_001:87-97): set the flag, report, and clear every timer
recorded in the active transfer's `retransmissionTimers` slots
(`clearTimeout` + `fill(null)`).  Pending timers whose ids are no longer in
any slot are untouched. -/
def pause (s : SenderState) : SenderState × List Effect :=
  let s1 := { s with isPaused := true }
  match s1.sendingFileState with
  | none => (s1, [Effect.statusInfo "Transfer paused."])
  | some sf =>
      let sf1 := { sf with
        retransmissionTimers := List.replicate sf.retransmissionTimers.length none }
      ({ s1 with
          sendingFileState := some sf1
          liveTimers := s1.liveTimers.filter
            (fun t => !(sf.retransmissionTimers.contains (some t.id))) },
       [Effect.statusInfo "Transfer paused."])

/-- `resume` (part_001:99-109): only acts when a transfer is active and
paused; clears the flag, reports, and sends the first unacknowledged chunk
(`acknowledgedChunks.indexOf(false)`), if any. -/
def resume (hash : Bytes → Nat) (s : SenderState) (encryptOk : Bool) :
    SenderState × List Effect :=
  match s.sendingFileState with
  | none => (s, [])
  | some sf =>
      if s.isPaused = false then (s, [])
      else
        let s1 := { s with isPaused := false }
        match indexOfFalse sf.acknowledgedChunks with
        | none => (s1, [Effect.statusInfo "Transfer resumed."])
        | some n =>
            let r := sendChunk hash s1 n encryptOk
            (r.1, Effect.statusInfo "Transfer resumed." :: r.2)

/-- `startNextFileTransfer` (part_001:124-160): an empty queue clears the
active transfer and emits the terminal success status; otherwise dequeue the
head, pre-slice its chunks, build and send the metadata, and send chunk 0. -/
def startNextFileTransfer (hash : Bytes → Nat) (now : Nat) (s : SenderState)
    (encryptOk : Bool) : SenderState × List Effect :=
  match s.filesToSend with
  | [] =>
      ({ s with sendingFileState := none },
       [Effect.statusSuccess "All files have been sent successfully!"])
  | f :: rest =>
      let md := mkMetadata hash f now
      let s1 := { s with
        filesToSend := rest
        sendingFileState := some
          { file := f
            metadata := md
            chunks := (List.range md.totalChunks).map (sliceChunk f.content)
            acknowledgedChunks := List.replicate md.totalChunks false
            retransmissionTimers := List.replicate md.totalChunks none } }
      let r := sendChunk hash s1 0 encryptOk
      (r.1,
       Effect.wireFileMetadata md ::
       Effect.statusInfo ("Sending metadata for " ++ f.name ++ "...") :: r.2)

/-- `sendFiles` (part_001:112-122), with the encryption pipeline already
set. -/
def sendFiles (hash : Bytes → Nat) (now : Nat) (s : SenderState)
    (files : List FileData) (encryptOk : Bool) : SenderState × List Effect :=
  if files.isEmpty then (s, [])
  else
    let s1 := { s with filesToSend := files }
    if s1.sendingFileState.isNone then startNextFileTransfer hash now s1 encryptOk
    else (s1, [])

/-- `handleChunkAck` (part_001:285-308): ignore acks for a non-active file;
clear the chunk's recorded timer; mark the chunk acknowledged (first ack
only) and report progress as acked/total; then send the first still
unacknowledged chunk unless paused. -/
def handleChunkAck (hash : Bytes → Nat) (s : SenderState) (fileId : String)
    (chunkIndex : Nat) (encryptOk : Bool) : SenderState × List Effect :=
  match s.sendingFileState with
  | none => (s, [])
  | some sf =>
      if sf.metadata.fileId ≠ fileId then (s, [])
      else
        let live1 :=
          match sf.retransmissionTimers.getD chunkIndex none with
          | none => s.liveTimers
          | some tid => s.liveTimers.filter (fun t => !(t.id == tid))
        let sf1 := { sf with
          retransmissionTimers := sf.retransmissionTimers.set chunkIndex none }
        let alreadyAcked := sf1.acknowledgedChunks.getD chunkIndex false
        let sf2 :=
          if alreadyAcked then sf1
          else { sf1 with
            acknowledgedChunks := sf1.acknowledgedChunks.set chunkIndex true }
        let progEvs :=
          if alreadyAcked then []
          else
            [Effect.fileProgress fileId sf2.metadata.name
              (roundPct (sf2.acknowledgedChunks.countP (fun b => b = true))
                sf2.metadata.totalChunks)]
        let s1 := { s with sendingFileState := some sf2, liveTimers := live1 }
        match indexOfFalse sf2.acknowledgedChunks with
        | none => (s1, progEvs)
        | some n =>
            if s1.isPaused then (s1, progEvs)
            else
              let r := sendChunk hash s1 n encryptOk
              (r.1, progEvs ++ r.2)

/-- `handleFileReceivedAck` (part_001:310-316). -/
def handleFileReceivedAck (hash : Bytes → Nat) (now : Nat) (s : SenderState)
    (fileId : String) (encryptOk : Bool) : SenderState × List Effect :=
  match s.sendingFileState with
  | none => (s, [])
  | some st =>
      if st.metadata.fileId = fileId then
        let r := startNextFileTransfer hash now s encryptOk
        (r.1,
         Effect.statusSuccess ("Peer confirmed receipt of " ++ st.file.name ++ ".") ::
         Effect.fileSent st.file.name :: r.2)
      else (s, [])

/-- A pending timer fires (part_001:182-187): it is removed from the
browser's pending set, and the callback retransmits the chunk if the same
file is still the active transfer and the chunk is still unacknowledged.
(`sendChunk` itself refuses to resend while paused.) -/
def timerFire (hash : Bytes → Nat) (s : SenderState) (tid : Nat)
    (encryptOk : Bool) : SenderState × List Effect :=
  match s.liveTimers.find? (fun t => t.id == tid) with
  | none => (s, [])
  | some t =>
      let s1 := { s with liveTimers := s.liveTimers.filter (fun u => !(u.id == tid)) }
      let stillActive :=
        match s1.sendingFileState with
        | none => false
        | some sf =>
            sf.metadata.fileId = t.fileId ∧
            sf.acknowledgedChunks.getD t.chunkIndex false = false
      if stillActive then
        let r := sendChunk hash s1 t.chunkIndex encryptOk
        (r.1,
         Effect.statusInfo
           ("Chunk " ++ toString (t.chunkIndex + 1) ++ " of " ++ t.fileName ++
            " lost, retransmitting...") :: r.2)
      else (s1, [])

/-- Labels of the acknowledged-mode sender transition system. -/
inductive ALabel where
  | sendFiles (files : List FileData) (now : Nat) (encryptOk : Bool)
  | chunkAck (fileId : String) (chunkIndex : Nat) (encryptOk : Bool)
  | fileReceivedAck (fileId : String) (now : Nat) (encryptOk : Bool)
  | timerFire (tid : Nat) (encryptOk : Bool)
  | pause
  | resume (encryptOk : Bool)
deriving Repr, DecidableEq

/-- One labelled step of the acknowledged-mode sender. -/
def astep (hash : Bytes → Nat) (s : SenderState) :
    ALabel → SenderState × List Effect
  | ALabel.sendFiles files now encryptOk => sendFiles hash now s files encryptOk
  | ALabel.chunkAck fileId chunkIndex encryptOk =>
      handleChunkAck hash s fileId chunkIndex encryptOk
  | ALabel.fileReceivedAck fileId now encryptOk =>
      handleFileReceivedAck hash now s fileId encryptOk
  | ALabel.timerFire tid encryptOk => timerFire hash s tid encryptOk
  | ALabel.pause => pause s
  | ALabel.resume encryptOk => resume hash s encryptOk

/-- Run a list of labelled steps, accumulating all emitted effects. -/
def arun (hash : Bytes → Nat) (s : SenderState) :
    List ALabel → SenderState × List Effect
  | [] => (s, [])
  | l :: ls =>
      let r := astep hash s l
      let r2 := arun hash r.1 ls
      (r2.1, r.2 ++ r2.2)

end Acked

namespace Server

/-- Messages the signaling server sends to a client
(`src/server/index.js`). -/
inductive SrvMsg where
  | errorRoomFull
  | roomJoined (roomId : String)
  | peerJoined (initiator : Bool)
  | peerLeft
deriving Repr, DecidableEq

/-- The server's `rooms : Map<roomId, Set<ws>>`; clients are numbered, and
a room's member list is kept in insertion (join) order, which is exactly the
iteration order of a JavaScript `Set`. -/
structure Rooms where
  rooms : List (String × List Nat)
deriving Repr, DecidableEq

/-- `handleJoinRoom` (server/index.js:56-86): create the room if absent; a
room that already has two members rejects the join with a "Room is full"
error; otherwise the client is added and told `room-joined`, and when the
room becomes full, the loop `for (const client of room) if (client !== ws)`
sends `peer-joined {initiator: true}` to the OTHER (first-joined) client and
`peer-joined {initiator: false}` to `ws`, the second joiner — despite the
adjacent comment "The peer that joined second starts the key exchange". -/
def handleJoinRoom (rs : Rooms) (ws : Nat) (roomId : String) :
    Rooms × List (Nat × SrvMsg) :=
  let room := (mapLookup rs.rooms roomId).getD []
  if room.length ≥ 2 then (rs, [(ws, SrvMsg.errorRoomFull)])
  else
    let room1 := room ++ [ws]
    let rs1 : Rooms := { rooms := mapInsert rs.rooms roomId room1 }
    let base := [(ws, SrvMsg.roomJoined roomId)]
    if room1.length = 2 then
      (rs1, base ++
        (room1.filter (fun c => !(c == ws))).flatMap
          (fun c => [(c, SrvMsg.peerJoined true), (ws, SrvMsg.peerJoined false)]))
    else
      (rs1, base)

end Server

namespace Page

/-- Effects of the page component's signaling handler
(`src/components/FileTransferPage.tsx`). -/
inductive PEffect where
  | sendPublicKey
  | createDataChannel
  | sendOffer
  | disconnectPeer
deriving Repr, DecidableEq

/-- The `peer-joined` case (FileTransferPage.tsx:193-198): record
`isSender.current = payload.initiator` and send the local public key. -/
def handlePeerJoined (initiator : Bool) : Bool × List PEffect :=
  (initiator, [PEffect.sendPublicKey])

/-- The `public-key` case (FileTransferPage.tsx:199-209): after deriving the
shared secret, ONLY the peer recorded as initiator (`isSender.current`)
creates the data channel and sends the SDP offer. -/
def handlePublicKey (isSender : Bool) : List PEffect :=
  if isSender then [PEffect.createDataChannel, PEffect.sendOffer] else []

/-- The page's view of teardown state: whether its `fileManager` and
`encryptionPipeline` refs have been nulled.  The `FileTransferManager`
object itself (with its pending browser timers) survives — dropping the
reference neither clears `window` timers nor touches the manager's state. -/
structure PageState where
  manager : Acked.SenderState
  managerRefCleared : Bool
  pipelineRefCleared : Bool
deriving Repr, DecidableEq

/-- `handleCancelTransfer` (FileTransferPage.tsx:267-305), also invoked on
the `peer-left` signaling message (line 220-223): it disconnects the peer
connection and nulls the page's `fileManager` and `encryptionPipeline`
references, but performs NO call into the manager — in particular it never
clears the manager's `retransmissionTimers` and never calls `pause()`, so
every pending retransmission timer stays scheduled. -/
def handleCancelTransfer (p : PageState) : PageState × List PEffect :=
  ({ manager := p.manager, managerRefCleared := true, pipelineRefCleared := true },
   [PEffect.disconnectPeer])

end Page

/-- A concrete stand-in for SHA-256 used by witnesses and counterexamples:
the code only compares digests, so any function instantiates the model. -/
def sampleHash : Bytes → Nat := fun l => l.sum

section MapLemmas

variable {β : Type}

theorem mapLookup_cons (p : String × β) (t : List (String × β)) (k : String) :
    mapLookup (p :: t) k = if p.1 == k then some p.2 else mapLookup t k := by
  cases hc : p.1 == k <;> simp [mapLookup, List.find?_cons, hc]

theorem mapLookup_map_replace_self (k : String) (v : β) :
    ∀ m : List (String × β), (mapLookup m k).isSome →
      mapLookup (m.map (fun p => if p.1 == k then (k, v) else p)) k = some v := by
  intro m
  induction m with
  | nil => intro h; simp [mapLookup] at h
  | cons p t ih =>
    intro h
    cases hc : p.1 == k
    · rw [List.map_cons, if_neg (by simp [hc]), mapLookup_cons, hc]
      apply ih
      rwa [mapLookup_cons, hc, if_neg (by simp)] at h
    · rw [List.map_cons, if_pos hc, mapLookup_cons]
      simp

theorem mapLookup_map_replace_ne (k k' : String) (v : β) (hk : k' ≠ k) :
    ∀ m : List (String × β),
      mapLookup (m.map (fun p => if p.1 == k then (k, v) else p)) k' =
        mapLookup m k' := by
  intro m
  induction m with
  | nil => rfl
  | cons p t ih =>
    cases hc : p.1 == k
    · rw [List.map_cons, if_neg (by simp [hc]), mapLookup_cons, mapLookup_cons, ih]
    · have hpk : p.1 = k := by simpa using hc
      have h1 : ((k : String) == k') = false := by
        simp only [beq_eq_false_iff_ne, ne_eq]
        exact fun hh => hk hh.symm
      have h2 : (p.1 == k') = false := by rw [hpk]; exact h1
      rw [List.map_cons, if_pos hc, mapLookup_cons, mapLookup_cons, ih]
      simp only [h1, h2]
      simp

theorem mapLookup_append_single_self (k : String) (v : β)
    (m : List (String × β)) (h : mapLookup m k = none) :
    mapLookup (m ++ [(k, v)]) k = some v := by
  have hf : List.find? (fun p => p.1 == k) m = none := by
    unfold mapLookup at h
    cases hx : List.find? (fun p => p.1 == k) m with
    | none => rfl
    | some q => rw [hx] at h; simp at h
  unfold mapLookup
  rw [List.find?_append, hf]
  simp [List.find?_cons]

theorem mapLookup_append_single_ne (k k' : String) (v : β)
    (m : List (String × β)) (hk : k' ≠ k) :
    mapLookup (m ++ [(k, v)]) k' = mapLookup m k' := by
  have h1 : ((k : String) == k') = false := by
    simp only [beq_eq_false_iff_ne, ne_eq]
    exact fun hh => hk hh.symm
  unfold mapLookup
  rw [List.find?_append]
  have : List.find? (fun p => p.1 == k') [(k, v)] = none := by
    simp [List.find?_cons, h1]
  rw [this]
  simp

theorem mapLookup_insert_self (m : List (String × β)) (k : String) (v : β) :
    mapLookup (mapInsert m k v) k = some v := by
  unfold mapInsert
  split
  next h =>
    apply mapLookup_map_replace_self
    unfold mapLookup
    cases hx : List.find? (fun p => p.1 == k) m with
    | none => rw [hx] at h; simp at h
    | some q => simp
  next h =>
    apply mapLookup_append_single_self
    unfold mapLookup
    cases hx : List.find? (fun p => p.1 == k) m with
    | none => simp
    | some q => rw [hx] at h; simp at h

theorem mapLookup_insert_ne (m : List (String × β)) (k k' : String) (v : β)
    (hk : k' ≠ k) : mapLookup (mapInsert m k v) k' = mapLookup m k' := by
  unfold mapInsert
  split
  · exact mapLookup_map_replace_ne k k' v hk m
  · exact mapLookup_append_single_ne k k' v m hk

theorem mapLookup_erase_self (m : List (String × β)) (k : String) :
    mapLookup (mapErase m k) k = none := by
  induction m with
  | nil => rfl
  | cons p t ih =>
    show mapLookup (List.filter _ (p :: t)) k = none
    rw [List.filter_cons]
    cases hc : p.1 == k
    · rw [if_pos (by simp [hc]), mapLookup_cons, hc]
      simpa [mapErase] using ih
    · rw [if_neg (by simp [hc])]
      simpa [mapErase] using ih

theorem mapLookup_erase_ne (m : List (String × β)) (k k' : String)
    (hk : k' ≠ k) : mapLookup (mapErase m k) k' = mapLookup m k' := by
  induction m with
  | nil => rfl
  | cons p t ih =>
    show mapLookup (List.filter _ (p :: t)) k' = _
    rw [List.filter_cons]
    cases hc : p.1 == k
    · rw [if_pos (by simp [hc]), mapLookup_cons, mapLookup_cons]
      cases hc' : p.1 == k'
      · simpa [mapErase] using ih
      · rfl
    · have hpk : p.1 = k := by simpa using hc
      have h2 : (p.1 == k') = false := by
        rw [hpk]
        simp only [beq_eq_false_iff_ne, ne_eq]
        exact fun hh => hk hh.symm
      rw [if_neg (by simp [hc]), mapLookup_cons, h2]
      simpa [mapErase] using ih

end MapLemmas

/-- Characterization of `indexOfFalse`: it returns the first unacknowledged
index — that index is in range and `false`, and everything before it is
`true`. -/
theorem indexOfFalse_spec {l : List Bool} {n : Nat}
    (h : indexOfFalse l = some n) :
    n < l.length ∧ l.getD n true = false ∧ ∀ m, m < n → l.getD m false = true := by
  induction l generalizing n with
  | nil => exact absurd h (by simp [indexOfFalse])
  | cons b t ih =>
    cases b with
    | false =>
      have h0 : some 0 = some n :=
        (by rfl : indexOfFalse (false :: t) = some 0).symm.trans h
      injection h0 with h0
      subst h0
      exact ⟨by simp, by simp, fun m hm => absurd hm (by omega)⟩
    | true =>
      have h1 : (indexOfFalse t).map (fun j => j + 1) = some n :=
        (by rfl :
          indexOfFalse (true :: t) = (indexOfFalse t).map (fun j => j + 1)).symm.trans h
      cases hn : indexOfFalse t with
      | none => rw [hn] at h1; exact absurd h1 (by simp)
      | some n' =>
        rw [hn] at h1
        simp only [Option.map_some', Option.some.injEq] at h1
        subst h1
        obtain ⟨g1, g2, g3⟩ := ih hn
        refine ⟨by simpa using g1, by simpa using g2, ?_⟩
        intro m hm
        cases m with
        | zero => simp
        | succ m' => simpa using g3 m' (by omega)

/-- Claim C10: on receipt of a decrypted chunk whose `fileId` has no
registered incoming transfer (no prior `file-metadata` was processed for
it), the receiver returns without modifying any state — no slot written, no
count incremented, no ack, progress or error event emitted — in both
reliability variants. -/
theorem C10_unknown_fileId_noop (hash : Bytes → Nat)
    (s : Streaming.ReceiverState) (s' : Acked.ReceiverState)
    (data data' : Bytes) (md : ChunkMetadata)
    (h1 : mapLookup s.receivingFiles md.fileId = none)
    (h2 : mapLookup s'.receivingFiles md.fileId = none) :
    Streaming.handleChunkData hash s data md = (s, []) ∧
    Acked.handleChunkData hash s' data' md = (s', []) := by
  constructor
  · unfold Streaming.handleChunkData
    rw [h1]
  · unfold Acked.handleChunkData
    rw [h2]

/-- Witness for C10: a chunk for an unregistered `fileId` at a concrete
empty receiver state is dropped with no effects, in both variants. -/
theorem C10_unknown_fileId_noop_witness :
    Streaming.handleChunkData sampleHash { receivingFiles := [] } [1]
        { fileId := "x", chunkIndex := 0, size := 1, checksum := none } =
      ({ receivingFiles := [] }, []) ∧
    Acked.handleChunkData sampleHash { receivingFiles := [] } [2]
        { fileId := "x", chunkIndex := 0, size := 1, checksum := none } =
      ({ receivingFiles := [] }, []) :=
  C10_unknown_fileId_noop sampleHash { receivingFiles := [] }
    { receivingFiles := [] } [1] [2]
    { fileId := "x", chunkIndex := 0, size := 1, checksum := none } rfl rfl

/-- Helper for C3 (streaming variant): with the slot already filled, the
per-file record passed on is unchanged, so the post-state either still maps
`fileId` to a record with the same slots and count, or the entry was removed
by a successful reconstruction that exposed exactly the previously stored
slots. -/
theorem streaming_duplicate_chunk (hash : Bytes → Nat)
    (s : Streaming.ReceiverState) (data : Bytes) (md : ChunkMetadata)
    (fs : Streaming.ReceivingFileState) (b : Bytes)
    (h1 : mapLookup s.receivingFiles md.fileId = some fs)
    (hslot : fs.chunks.getD md.chunkIndex none = some b) :
    (∀ g, mapLookup (Streaming.handleChunkData hash s data md).1.receivingFiles
        md.fileId = some g →
      g.chunks = fs.chunks ∧ g.receivedChunksCount = fs.receivedChunksCount) ∧
    (mapLookup (Streaming.handleChunkData hash s data md).1.receivingFiles
        md.fileId = none →
      Effect.fileReceived fs.metadata.name fs.metadata.size
          ((fs.chunks.map (fun c => c.getD [])).flatten) ∈
        (Streaming.handleChunkData hash s data md).2) := by
  unfold Streaming.handleChunkData
  rw [h1]
  dsimp only
  rw [hslot, if_neg (show ¬(some b = none) by simp)]
  by_cases hcnt : fs.receivedChunksCount = fs.metadata.totalChunks
  · rw [if_pos hcnt]
    unfold Streaming.reconstructFile
    rw [mapLookup_insert_self]
    dsimp only
    by_cases hmiss : fs.chunks.contains none
    · rw [if_pos hmiss]
      dsimp only
      rw [mapLookup_insert_self]
      exact ⟨fun g hg => by cases hg; exact ⟨rfl, rfl⟩, fun hn => by cases hn⟩
    · rw [if_neg hmiss]
      by_cases hck :
          hash ((fs.chunks.map (fun c => c.getD [])).flatten) =
            fs.metadata.fullFileChecksum
      · rw [if_pos hck]
        refine ⟨?_, ?_⟩
        · intro g hg
          dsimp only at hg
          rw [mapLookup_erase_self] at hg
          cases hg
        · intro hn
          simp
      · rw [if_neg hck]
        dsimp only
        rw [mapLookup_insert_self]
        exact ⟨fun g hg => by cases hg; exact ⟨rfl, rfl⟩, fun hn => by cases hn⟩
  · rw [if_neg hcnt]
    dsimp only
    rw [mapLookup_insert_self]
    exact ⟨fun g hg => by cases hg; exact ⟨rfl, rfl⟩, fun hn => by cases hn⟩

/-- Helper for C3 (acknowledged variant): same statement as the streaming
helper; the extra per-chunk checksum branch either behaves identically (the
write is guarded the same way) or drops the duplicate entirely. -/
theorem acked_duplicate_chunk (hash : Bytes → Nat)
    (s : Acked.ReceiverState) (data : Bytes) (md : ChunkMetadata)
    (fs : Acked.ReceivingFileState) (b : Bytes)
    (h1 : mapLookup s.receivingFiles md.fileId = some fs)
    (hslot : fs.chunks.getD md.chunkIndex none = some b) :
    (∀ g, mapLookup (Acked.handleChunkData hash s data md).1.receivingFiles
        md.fileId = some g →
      g.chunks = fs.chunks ∧ g.receivedChunksCount = fs.receivedChunksCount) ∧
    (mapLookup (Acked.handleChunkData hash s data md).1.receivingFiles
        md.fileId = none →
      Effect.fileReceived fs.metadata.name fs.metadata.size
          ((fs.chunks.map (fun c => c.getD [])).flatten) ∈
        (Acked.handleChunkData hash s data md).2) := by
  unfold Acked.handleChunkData
  rw [h1]
  dsimp only
  by_cases hcs : some (hash data) = md.checksum
  · rw [if_pos hcs]
    rw [hslot, if_neg (show ¬(some b = none) by simp)]
    by_cases hcnt : fs.receivedChunksCount = fs.metadata.totalChunks
    · rw [if_pos hcnt]
      unfold Acked.reconstructFile
      rw [mapLookup_insert_self]
      dsimp only
      by_cases hmiss : fs.chunks.contains none
      · rw [if_pos hmiss]
        dsimp only
        rw [mapLookup_insert_self]
        exact ⟨fun g hg => by cases hg; exact ⟨rfl, rfl⟩, fun hn => by cases hn⟩
      · rw [if_neg hmiss]
        by_cases hck :
            hash ((fs.chunks.map (fun c => c.getD [])).flatten) =
              fs.metadata.fullFileChecksum
        · rw [if_pos hck]
          refine ⟨?_, ?_⟩
          · intro g hg
            dsimp only at hg
            rw [mapLookup_erase_self] at hg
            cases hg
          · intro hn
            simp
        · rw [if_neg hck]
          dsimp only
          rw [mapLookup_insert_self]
          exact ⟨fun g hg => by cases hg; exact ⟨rfl, rfl⟩, fun hn => by cases hn⟩
    · rw [if_neg hcnt]
      dsimp only
      rw [mapLookup_insert_self]
      exact ⟨fun g hg => by cases hg; exact ⟨rfl, rfl⟩, fun hn => by cases hn⟩
  · rw [if_neg hcs]
    refine ⟨?_, ?_⟩
    · intro g hg
      rw [h1] at hg
      cases hg
      exact ⟨rfl, rfl⟩
    · intro hn
      rw [h1] at hn
      cases hn

/-- Claim C3: delivering the same chunk index twice to a receiver is
idempotent — for every receiver state and every chunk index whose slot is
already filled, a second delivery of that index leaves the slot array and
the received-count unchanged (first write wins): in any post-state still
holding the transfer, slots and count are exactly the old ones, and the
entry can only disappear through a successful reconstruction that exposes
exactly the previously stored bytes — so duplicate delivery never corrupts
the assembled file.  Both reliability variants. -/
theorem C3_duplicate_chunk_idempotent (hash : Bytes → Nat)
    (s : Streaming.ReceiverState) (s' : Acked.ReceiverState)
    (data data' : Bytes) (md : ChunkMetadata)
    (fs : Streaming.ReceivingFileState) (fs' : Acked.ReceivingFileState)
    (b b' : Bytes)
    (h1 : mapLookup s.receivingFiles md.fileId = some fs)
    (hslot : fs.chunks.getD md.chunkIndex none = some b)
    (h2 : mapLookup s'.receivingFiles md.fileId = some fs')
    (hslot' : fs'.chunks.getD md.chunkIndex none = some b') :
    ((∀ g, mapLookup (Streaming.handleChunkData hash s data md).1.receivingFiles
        md.fileId = some g →
      g.chunks = fs.chunks ∧ g.receivedChunksCount = fs.receivedChunksCount) ∧
    (mapLookup (Streaming.handleChunkData hash s data md).1.receivingFiles
        md.fileId = none →
      Effect.fileReceived fs.metadata.name fs.metadata.size
          ((fs.chunks.map (fun c => c.getD [])).flatten) ∈
        (Streaming.handleChunkData hash s data md).2)) ∧
    ((∀ g, mapLookup (Acked.handleChunkData hash s' data' md).1.receivingFiles
        md.fileId = some g →
      g.chunks = fs'.chunks ∧ g.receivedChunksCount = fs'.receivedChunksCount) ∧
    (mapLookup (Acked.handleChunkData hash s' data' md).1.receivingFiles
        md.fileId = none →
      Effect.fileReceived fs'.metadata.name fs'.metadata.size
          ((fs'.chunks.map (fun c => c.getD [])).flatten) ∈
        (Acked.handleChunkData hash s' data' md).2)) :=
  ⟨streaming_duplicate_chunk hash s data md fs b h1 hslot,
   acked_duplicate_chunk hash s' data' md fs' b' h2 hslot'⟩

/-- Concrete metadata fixture used by witnesses. -/
def sampleMd : FileMetadata :=
  { fileId := "f", name := "n", size := 3, totalChunks := 2, fullFileChecksum := 99 }

/-- Concrete partially-filled streaming receiver record. -/
def sampleFsS : Streaming.ReceivingFileState :=
  { metadata := sampleMd, chunks := [some [1, 2, 3], none], receivedChunksCount := 1 }

/-- Concrete partially-filled acknowledged-mode receiver record. -/
def sampleFsA : Acked.ReceivingFileState :=
  { metadata := sampleMd, chunks := [some [1, 2, 3], none], receivedChunksCount := 1 }

/-- Concrete chunk metadata aimed at the already-filled slot 0. -/
def sampleCm : ChunkMetadata :=
  { fileId := "f", chunkIndex := 0, size := 3, checksum := some 6 }

/-- Witness for C3: a duplicate of chunk 0 (already stored) leaves the
concrete receiver record's slots and count unchanged in both variants. -/
theorem C3_duplicate_chunk_idempotent_witness :
    ((∀ g, mapLookup (Streaming.handleChunkData sampleHash
        { receivingFiles := [("f", sampleFsS)] } [9, 9, 9] sampleCm).1.receivingFiles
        sampleCm.fileId = some g →
      g.chunks = sampleFsS.chunks ∧
        g.receivedChunksCount = sampleFsS.receivedChunksCount) ∧
    (mapLookup (Streaming.handleChunkData sampleHash
        { receivingFiles := [("f", sampleFsS)] } [9, 9, 9] sampleCm).1.receivingFiles
        sampleCm.fileId = none →
      Effect.fileReceived sampleFsS.metadata.name sampleFsS.metadata.size
          ((sampleFsS.chunks.map (fun c => c.getD [])).flatten) ∈
        (Streaming.handleChunkData sampleHash
          { receivingFiles := [("f", sampleFsS)] } [9, 9, 9] sampleCm).2)) ∧
    ((∀ g, mapLookup (Acked.handleChunkData sampleHash
        { receivingFiles := [("f", sampleFsA)] } [8, 8, 8] sampleCm).1.receivingFiles
        sampleCm.fileId = some g →
      g.chunks = sampleFsA.chunks ∧
        g.receivedChunksCount = sampleFsA.receivedChunksCount) ∧
    (mapLookup (Acked.handleChunkData sampleHash
        { receivingFiles := [("f", sampleFsA)] } [8, 8, 8] sampleCm).1.receivingFiles
        sampleCm.fileId = none →
      Effect.fileReceived sampleFsA.metadata.name sampleFsA.metadata.size
          ((sampleFsA.chunks.map (fun c => c.getD [])).flatten) ∈
        (Acked.handleChunkData sampleHash
          { receivingFiles := [("f", sampleFsA)] } [8, 8, 8] sampleCm).2)) :=
  C3_duplicate_chunk_idempotent sampleHash
    { receivingFiles := [("f", sampleFsS)] } { receivingFiles := [("f", sampleFsA)] }
    [9, 9, 9] [8, 8, 8] sampleCm sampleFsS sampleFsA [1, 2, 3] [1, 2, 3]
    (by decide) (by decide) (by decide) (by decide)

/-- Fully-received metadata fixture whose declared checksum (999) does not
match the stored content `[1, 2, 3]` under `sampleHash` (6). -/
def badMd : FileMetadata :=
  { fileId := "g", name := "bad.bin", size := 3, totalChunks := 1,
    fullFileChecksum := 999 }

/-- Complete (all slots filled) receiver record for `badMd`. -/
def badFs : Streaming.ReceivingFileState :=
  { metadata := badMd, chunks := [some [1, 2, 3]], receivedChunksCount := 1 }

/-- Counterexample to claim C1 as stated: on a whole-file checksum mismatch
the receiver does NOT discard the file's `IncomingTransfer` entry —
`reconstructFile` reports the fatal integrity error but the
`receivingFiles` map still holds the entry afterwards. -/
theorem C1_counterexample :
    mapLookup (Streaming.reconstructFile sampleHash
        { receivingFiles := [("g", badFs)] } "g").1.receivingFiles "g" =
      some badFs ∧
    (Streaming.reconstructFile sampleHash
        { receivingFiles := [("g", badFs)] } "g").2 =
      [Effect.statusError
        "Final file checksum mismatch for bad.bin. Transfer failed."] := by
  constructor
  · decide
  · decide

/-- Claim C1 (amended): the receiver exposes the assembled file and sends
`file-received-ack` if and only if every chunk slot is filled and the
recomputed whole-file checksum equals the declared `fullFileChecksum`; on a
mismatch it reports a fatal integrity error for that file and RETAINS the
file's receiver state (the entry is not discarded), while other transfers
continue (entries under other `fileId`s are untouched in both outcomes). -/
theorem C1_checksum_gate (hash : Bytes → Nat) (s : Streaming.ReceiverState)
    (fid : String) (fs : Streaming.ReceivingFileState)
    (hlook : mapLookup s.receivingFiles fid = some fs) :
    ((Effect.wireFileReceivedAck fid ∈ (Streaming.reconstructFile hash s fid).2 ↔
      fs.chunks.contains none = false ∧
        hash ((fs.chunks.map (fun c => c.getD [])).flatten) =
          fs.metadata.fullFileChecksum) ∧
     ((∃ c, Effect.fileReceived fs.metadata.name fs.metadata.size c ∈
          (Streaming.reconstructFile hash s fid).2) ↔
      fs.chunks.contains none = false ∧
        hash ((fs.chunks.map (fun c => c.getD [])).flatten) =
          fs.metadata.fullFileChecksum)) ∧
    (fs.chunks.contains none = false →
      hash ((fs.chunks.map (fun c => c.getD [])).flatten) =
          fs.metadata.fullFileChecksum →
      Streaming.reconstructFile hash s fid =
        ({ receivingFiles := mapErase s.receivingFiles fid },
         [Effect.fileReceived fs.metadata.name fs.metadata.size
            ((fs.chunks.map (fun c => c.getD [])).flatten),
          Effect.wireFileReceivedAck fid])) ∧
    (fs.chunks.contains none = false →
      hash ((fs.chunks.map (fun c => c.getD [])).flatten) ≠
          fs.metadata.fullFileChecksum →
      Streaming.reconstructFile hash s fid =
        (s, [Effect.statusError
          ("Final file checksum mismatch for " ++ fs.metadata.name ++
           ". Transfer failed.")])) ∧
    (∀ k, k ≠ fid →
      mapLookup (Streaming.reconstructFile hash s fid).1.receivingFiles k =
        mapLookup s.receivingFiles k) := by
  unfold Streaming.reconstructFile
  rw [hlook]
  dsimp only
  by_cases hmiss : fs.chunks.contains none = true
  · rw [if_pos hmiss]
    have hmem : none ∈ fs.chunks := by simpa using hmiss
    refine ⟨⟨by simp [hmem], by simp [hmem]⟩, ?_, ?_, ?_⟩
    · intro hc
      rw [hc] at hmiss
      cases hmiss
    · intro hc
      rw [hc] at hmiss
      cases hmiss
    · intro k _
      rfl
  · rw [if_neg hmiss]
    have hmiss' : fs.chunks.contains none = false := by
      cases hx : fs.chunks.contains none
      · rfl
      · exact absurd hx hmiss
    have hnm : none ∉ fs.chunks := by simpa using hmiss'
    by_cases hck :
        hash ((fs.chunks.map (fun c => c.getD [])).flatten) =
          fs.metadata.fullFileChecksum
    · rw [if_pos hck]
      refine ⟨⟨by simp [hnm, hck], ?_⟩, ?_, ?_, ?_⟩
      · constructor
        · intro _
          exact ⟨hmiss', hck⟩
        · intro _
          exact ⟨(fs.chunks.map (fun c => c.getD [])).flatten, by simp⟩
      · intro _ _
        rfl
      · intro _ hne
        exact absurd hck hne
      · intro k hk
        exact mapLookup_erase_ne s.receivingFiles fid k hk
    · rw [if_neg hck]
      refine ⟨⟨by simp [hck], by simp [hck]⟩, ?_, ?_, ?_⟩
      · intro _ hc
        exact absurd hc hck
      · intro _ _
        rfl
      · intro k _
        rfl

/-- Complete matching one-chunk receiver record: stored content `[1, 2, 3]`
with declared checksum 6 = `sampleHash [1, 2, 3]`. -/
def goodFs : Streaming.ReceivingFileState :=
  { metadata :=
      { fileId := "f", name := "n", size := 3, totalChunks := 1,
        fullFileChecksum := 6 }
    chunks := [some [1, 2, 3]]
    receivedChunksCount := 1 }

/-- Witness for C1 (amended) at a concrete matching one-chunk state: the
file is exposed, the ack is sent, and the entry is removed. -/
theorem C1_checksum_gate_witness :
    ((Effect.wireFileReceivedAck "f" ∈ (Streaming.reconstructFile sampleHash
        { receivingFiles := [("f", goodFs)] } "f").2 ↔
      goodFs.chunks.contains none = false ∧
        sampleHash ((goodFs.chunks.map (fun c => c.getD [])).flatten) =
          goodFs.metadata.fullFileChecksum) ∧
     ((∃ c, Effect.fileReceived goodFs.metadata.name goodFs.metadata.size c ∈
          (Streaming.reconstructFile sampleHash
            { receivingFiles := [("f", goodFs)] } "f").2) ↔
      goodFs.chunks.contains none = false ∧
        sampleHash ((goodFs.chunks.map (fun c => c.getD [])).flatten) =
          goodFs.metadata.fullFileChecksum)) ∧
    (goodFs.chunks.contains none = false →
      sampleHash ((goodFs.chunks.map (fun c => c.getD [])).flatten) =
          goodFs.metadata.fullFileChecksum →
      Streaming.reconstructFile sampleHash
          { receivingFiles := [("f", goodFs)] } "f" =
        ({ receivingFiles := mapErase [("f", goodFs)] "f" },
         [Effect.fileReceived goodFs.metadata.name goodFs.metadata.size
            ((goodFs.chunks.map (fun c => c.getD [])).flatten),
          Effect.wireFileReceivedAck "f"])) ∧
    (goodFs.chunks.contains none = false →
      sampleHash ((goodFs.chunks.map (fun c => c.getD [])).flatten) ≠
          goodFs.metadata.fullFileChecksum →
      Streaming.reconstructFile sampleHash
          { receivingFiles := [("f", goodFs)] } "f" =
        ({ receivingFiles := [("f", goodFs)] },
         [Effect.statusError
          ("Final file checksum mismatch for " ++ goodFs.metadata.name ++
           ". Transfer failed.")])) ∧
    (∀ k, k ≠ "f" →
      mapLookup (Streaming.reconstructFile sampleHash
          { receivingFiles := [("f", goodFs)] } "f").1.receivingFiles k =
        mapLookup [("f", goodFs)] k) :=
  C1_checksum_gate sampleHash { receivingFiles := [("f", goodFs)] } "f" goodFs
    (by decide)

/-- The zero-byte file of claim C7. -/
def emptyFile : FileData := { name := "empty.txt", content := [] }

/-- Metadata the sender builds for the zero-byte file (`Date.now() = 7`):
`totalChunks = 0` and the declared checksum is the empty-input digest. -/
def emptyMd : FileMetadata := mkMetadata sampleHash emptyFile 7

/-- Idle streaming sender. -/
def idleSender : Streaming.SenderState :=
  { filesToSend := [], sendingFileState := none, isPaused := false }

/-- Claim C7, evaluated at the failing input (a zero-byte file): the sender
computes `chunk_count = 0` and sends the `file-metadata` message, and its
streaming loop never sends a chunk; the receiver registers the transfer with
an empty (hence fully filled) slot array — but emits NO `fileReceived` and
NO `file-received-ack`: reconstruction is only triggered from
`handleChunkData`, and no chunk message exists for a 0-chunk file, so the
"immediate reconstruction" the claim describes never happens (the transfer
and the sender's queue stall).  The final conjunct shows the counterfactual:
had `reconstructFile` been invoked on that state, it would have succeeded
immediately, exposing the empty byte sequence whose checksum matches the
declared empty-input digest and sending the ack. -/
theorem C7_zero_byte_file :
    emptyMd.totalChunks = 0 ∧
    (Streaming.sendFiles sampleHash 7 idleSender [emptyFile]).2 =
      [Effect.wireFileMetadata emptyMd,
       Effect.statusInfo "Sending metadata for empty.txt..."] ∧
    (∀ buffered encryptOk,
      Streaming.streamFileStep (Streaming.sendFiles sampleHash 7 idleSender
          [emptyFile]).1 buffered encryptOk =
        ((Streaming.sendFiles sampleHash 7 idleSender [emptyFile]).1, [])) ∧
    (Streaming.handleFileMetadata { receivingFiles := [] } emptyMd).2 =
      [Effect.statusInfo "Receiving metadata for empty.txt",
       Effect.fileProgress emptyMd.fileId "empty.txt" 0] ∧
    mapLookup (Streaming.handleFileMetadata { receivingFiles := [] }
        emptyMd).1.receivingFiles emptyMd.fileId =
      some { metadata := emptyMd, chunks := [], receivedChunksCount := 0 } ∧
    (∀ e, e ∈ (Streaming.handleFileMetadata { receivingFiles := [] } emptyMd).2 →
      (∀ n sz c, e ≠ Effect.fileReceived n sz c) ∧
      ∀ fid, e ≠ Effect.wireFileReceivedAck fid) ∧
    Streaming.reconstructFile sampleHash
        (Streaming.handleFileMetadata { receivingFiles := [] } emptyMd).1
        emptyMd.fileId =
      ({ receivingFiles := [] },
       [Effect.fileReceived "empty.txt" 0 [],
        Effect.wireFileReceivedAck emptyMd.fileId]) := by
  refine ⟨by decide, by decide, ?_, by decide, by decide, ?_, by decide⟩
  · intro buffered encryptOk
    rfl
  · intro e he
    have he' : e = Effect.statusInfo "Receiving metadata for empty.txt" ∨
        e = Effect.fileProgress emptyMd.fileId "empty.txt" 0 := by
      have h2 : (Streaming.handleFileMetadata { receivingFiles := [] } emptyMd).2 =
          [Effect.statusInfo "Receiving metadata for empty.txt",
           Effect.fileProgress emptyMd.fileId "empty.txt" 0] := by decide
      rw [h2] at he
      simpa using he
    rcases he' with h | h <;> subst h
    · exact ⟨fun n sz c => by simp, fun fid => by simp⟩
    · exact ⟨fun n sz c => by simp, fun fid => by simp⟩

/-- Claim C8, evaluated at the failing input (clients 0 and 1 joining room
"r" in that order, then client 2): the room-full rejection of a third join
and the "initiator opens the data channel and sends the offer" page
behavior match the claim, but the server assigns `initiator = true` to
client 0 — the FIRST joiner — and `initiator = false` to client 1, the
second joiner, contradicting both the claim and the code's own adjacent
comment ("The peer that joined second starts the key exchange"). -/
theorem C8_initiator_assignment :
    Server.handleJoinRoom { rooms := [] } 0 "r" =
      ({ rooms := [("r", [0])] }, [(0, Server.SrvMsg.roomJoined "r")]) ∧
    Server.handleJoinRoom { rooms := [("r", [0])] } 1 "r" =
      ({ rooms := [("r", [0, 1])] },
       [(1, Server.SrvMsg.roomJoined "r"),
        (0, Server.SrvMsg.peerJoined true),
        (1, Server.SrvMsg.peerJoined false)]) ∧
    Server.handleJoinRoom { rooms := [("r", [0, 1])] } 2 "r" =
      ({ rooms := [("r", [0, 1])] }, [(2, Server.SrvMsg.errorRoomFull)]) ∧
    Page.handlePeerJoined true = (true, [Page.PEffect.sendPublicKey]) ∧
    Page.handlePublicKey true =
      [Page.PEffect.createDataChannel, Page.PEffect.sendOffer] ∧
    Page.handlePublicKey false = [] := by
  decide

/-- Idle acknowledged-mode sender. -/
def c9Start : Acked.SenderState :=
  { filesToSend := [], sendingFileState := none, isPaused := false,
    liveTimers := [], nextTimerId := 0 }

/-- Acknowledged-mode sender mid-transfer: `sendFiles` has sent chunk 0 of
"a.bin" and scheduled retransmission timer 0 for it; no ack has arrived. -/
def c9Mid : Acked.SenderState :=
  (Acked.arun sampleHash c9Start
    [Acked.ALabel.sendFiles [{ name := "a.bin", content := [1, 2, 3] }] 1 true]).1

/-- Claim C9, evaluated at the failing input (teardown with one in-flight
chunk): `handleCancelTransfer` — also run on `peer-left` — only drops the
page's references and disconnects; it leaves the manager (and therefore its
pending `window.setTimeout` retransmission timer) completely untouched, so
after teardown the timer is still pending, fires, passes its guard (the
orphaned manager's `sendingFileState` still matches) and attempts a
retransmission — where the claim says every pending timer is cancelled and
none fires. -/
theorem C9_timer_survives_teardown :
    c9Mid.liveTimers =
      [{ id := 0, fileId := "a.bin-3-1", chunkIndex := 0, fileName := "a.bin" }] ∧
    (∀ p : Page.PageState,
      (Page.handleCancelTransfer p).1.manager = p.manager ∧
      (Page.handleCancelTransfer p).1.pipelineRefCleared = true ∧
      (Page.handleCancelTransfer p).2 = [Page.PEffect.disconnectPeer]) ∧
    (Page.handleCancelTransfer
        { manager := c9Mid, managerRefCleared := false,
          pipelineRefCleared := false }).1.manager.liveTimers ≠ [] ∧
    Effect.statusInfo "Chunk 1 of a.bin lost, retransmitting..." ∈
      (Acked.timerFire sampleHash
        (Page.handleCancelTransfer
          { manager := c9Mid, managerRefCleared := false,
            pipelineRefCleared := false }).1.manager 0 true).2 ∧
    Effect.wireChunkBinary "a.bin-3-1" 0 [1, 2, 3] ∈
      (Acked.timerFire sampleHash
        (Page.handleCancelTransfer
          { manager := c9Mid, managerRefCleared := false,
            pipelineRefCleared := false }).1.manager 0 true).2 := by
  refine ⟨by decide, ?_, by decide, by decide, by decide⟩
  intro p
  exact ⟨rfl, rfl, rfl⟩

/-- Counterexample to claim C4 as stated: in the acknowledged variant an
`encrypt` returning `null` (here at chunk 0 of the concrete mid-transfer
state) only reports a per-chunk error — the connection is NOT aborted (no
disconnect effect) and the state is unchanged. -/
theorem C4_counterexample :
    Acked.sendChunk sampleHash c9Mid 0 false =
      (c9Mid, [Effect.statusError "Encryption failed for chunk 1 of a.bin."]) ∧
    Effect.disconnect ∉ (Acked.sendChunk sampleHash c9Mid 0 false).2 := by
  constructor
  · decide
  · decide

/-- Claim C4 (amended): when `encrypt` returns null for a chunk, the
STREAMING variant reports the failure and aborts the entire connection
(`disconnect` effect), while the ACKNOWLEDGED variant only reports the
per-chunk failure and abandons that send — without a disconnect, leaving
the state unchanged (no retransmission timer is even scheduled). -/
theorem C4_encrypt_failure_behavior (hash : Bytes → Nat)
    (s : Streaming.SenderState) (st : Streaming.SendingFileState)
    (buffered : Nat)
    (hst : s.sendingFileState = some st)
    (hmode : st.mode = Streaming.LoopMode.ready)
    (hp : s.isPaused = false)
    (hlt : st.sentChunksCount < st.metadata.totalChunks)
    (hbuf : ¬ buffered > Streaming.HIGH_WATER_MARK)
    (s' : Acked.SenderState) (sf : Acked.SendingFileState) (i : Nat)
    (hst' : s'.sendingFileState = some sf)
    (hp' : s'.isPaused = false)
    (hlt' : i < sf.metadata.totalChunks) :
    Streaming.streamFileStep s buffered false =
      (s, [Effect.statusError ("Encryption failed for chunk " ++
             toString (st.sentChunksCount + 1) ++ " of " ++
             st.metadata.name ++ "."),
           Effect.disconnect]) ∧
    Effect.disconnect ∈ (Streaming.streamFileStep s buffered false).2 ∧
    Acked.sendChunk hash s' i false =
      (s', [Effect.statusError ("Encryption failed for chunk " ++
              toString (i + 1) ++ " of " ++ sf.metadata.name ++ ".")]) ∧
    Effect.disconnect ∉ (Acked.sendChunk hash s' i false).2 := by
  have hstream : Streaming.streamFileStep s buffered false =
      (s, [Effect.statusError ("Encryption failed for chunk " ++
             toString (st.sentChunksCount + 1) ++ " of " ++
             st.metadata.name ++ "."),
           Effect.disconnect]) := by
    unfold Streaming.streamFileStep
    rw [hst]
    dsimp only
    rw [if_neg (by rw [hmode]; intro hx; cases hx),
        if_neg (show ¬ st.sentChunksCount ≥ st.metadata.totalChunks by omega),
        if_neg (by rw [hp]; intro hx; cases hx),
        if_neg hbuf]
    unfold Streaming.sendCurrentChunk
    rfl
  have hacked : Acked.sendChunk hash s' i false =
      (s', [Effect.statusError ("Encryption failed for chunk " ++
              toString (i + 1) ++ " of " ++ sf.metadata.name ++ ".")]) := by
    unfold Acked.sendChunk
    rw [hst']
    dsimp only
    rw [if_neg (show ¬ (i ≥ sf.metadata.totalChunks ∨ s'.isPaused = true) by
          rw [hp']
          push_neg
          exact ⟨by omega, by intro hx; cases hx⟩)]
    rfl
  refine ⟨hstream, ?_, hacked, ?_⟩
  · rw [hstream]
    simp
  · rw [hacked]
    simp

/-- Streaming sender mid-transfer of the 3-byte file "a.bin": chunk 0 not
yet sent, loop at its head. -/
def c4StreamMid : Streaming.SenderState :=
  (Streaming.sendFiles sampleHash 1 idleSender
    [{ name := "a.bin", content := [1, 2, 3] }]).1

/-- Witness for C4 (amended) at concrete mid-transfer states of both
variants with `encrypt` failing on the next chunk. -/
theorem C4_encrypt_failure_behavior_witness :
    Streaming.streamFileStep c4StreamMid 0 false =
      (c4StreamMid,
       [Effect.statusError "Encryption failed for chunk 1 of a.bin.",
        Effect.disconnect]) ∧
    Effect.disconnect ∈ (Streaming.streamFileStep c4StreamMid 0 false).2 ∧
    Acked.sendChunk sampleHash c9Mid 0 false =
      (c9Mid, [Effect.statusError "Encryption failed for chunk 1 of a.bin."]) ∧
    Effect.disconnect ∉ (Acked.sendChunk sampleHash c9Mid 0 false).2 :=
  C4_encrypt_failure_behavior sampleHash c4StreamMid
    { file := { name := "a.bin", content := [1, 2, 3] }
      metadata := mkMetadata sampleHash { name := "a.bin", content := [1, 2, 3] } 1
      sentChunksCount := 0
      mode := Streaming.LoopMode.ready }
    0 (by decide) rfl rfl (by decide) (by decide)
    c9Mid
    { file := { name := "a.bin", content := [1, 2, 3] }
      metadata := mkMetadata sampleHash { name := "a.bin", content := [1, 2, 3] } 1
      chunks := [[1, 2, 3]]
      acknowledgedChunks := [false]
      retransmissionTimers := [some 0] }
    0 (by decide) rfl (by decide)

/-- Claim C6: streaming-mode flow control.  The high-watermark is 15 MiB and
the transport's low-watermark event threshold is set at 8 MiB; before each
send the loop checks the sampled outbound `bufferedAmount` — exceeding the
high-watermark suspends the iteration without submitting the chunk; while
suspended, no loop activity submits anything (whatever the buffer sample);
the `bufferedamountlow` event resumes the suspended iteration, which then
sends the pending chunk. -/
theorem C6_backpressure :
    Streaming.HIGH_WATER_MARK = 15 * 1024 * 1024 ∧
    Streaming.bufferedAmountLowThreshold = 8 * 1024 * 1024 ∧
    (∀ (s : Streaming.SenderState) (st : Streaming.SendingFileState)
        (buffered : Nat) (encryptOk : Bool),
      s.sendingFileState = some st →
      st.mode = Streaming.LoopMode.ready →
      s.isPaused = false →
      st.sentChunksCount < st.metadata.totalChunks →
      buffered > Streaming.HIGH_WATER_MARK →
      Streaming.streamFileStep s buffered encryptOk =
        ({ s with sendingFileState := some { st with mode := Streaming.LoopMode.waitingForBuffer } }, [])) ∧
    (∀ (s : Streaming.SenderState) (st : Streaming.SendingFileState)
        (buffered : Nat) (encryptOk : Bool),
      s.sendingFileState = some st →
      st.mode = Streaming.LoopMode.waitingForBuffer →
      Streaming.streamFileStep s buffered encryptOk = (s, [])) ∧
    (∀ (s : Streaming.SenderState) (st : Streaming.SendingFileState),
      s.sendingFileState = some st →
      st.mode = Streaming.LoopMode.waitingForBuffer →
      Effect.wireChunkBinary st.metadata.fileId st.sentChunksCount
          (sliceChunk st.file.content st.sentChunksCount) ∈
        (Streaming.bufferedAmountLowEvent s true).2) := by
  refine ⟨rfl, rfl, ?_, ?_, ?_⟩
  · intro s st buffered encryptOk hst hmode hp hlt hbuf
    unfold Streaming.streamFileStep
    rw [hst]
    dsimp only
    rw [if_neg (by rw [hmode]; intro hx; cases hx),
        if_neg (show ¬ st.sentChunksCount ≥ st.metadata.totalChunks by omega),
        if_neg (by rw [hp]; intro hx; cases hx),
        if_pos hbuf]
  · intro s st buffered encryptOk hst hmode
    unfold Streaming.streamFileStep
    rw [hst]
    dsimp only
    rw [if_pos hmode]
  · intro s st hst hmode
    unfold Streaming.bufferedAmountLowEvent
    rw [hst]
    dsimp only
    rw [if_pos hmode]
    unfold Streaming.sendCurrentChunk
    simp

/-- The in-flight sending record of `c4StreamMid`. -/
def c6StReady : Streaming.SendingFileState :=
  { file := { name := "a.bin", content := [1, 2, 3] }
    metadata := mkMetadata sampleHash { name := "a.bin", content := [1, 2, 3] } 1
    sentChunksCount := 0
    mode := Streaming.LoopMode.ready }

/-- The same sender suspended in `waitForBufferToClear`. -/
def c6Waiting : Streaming.SenderState :=
  { filesToSend := [], isPaused := false,
    sendingFileState :=
      some { c6StReady with mode := Streaming.LoopMode.waitingForBuffer } }

/-- Witness for C6 at concrete states: a buffer sample one byte above the
15 MiB high-watermark suspends the loop without sending; a suspended loop
iteration sends nothing; the low event releases the pending chunk 0. -/
theorem C6_backpressure_witness :
    Streaming.streamFileStep c4StreamMid (Streaming.HIGH_WATER_MARK + 1) true =
      (c6Waiting, []) ∧
    Streaming.streamFileStep c6Waiting 0 true = (c6Waiting, []) ∧
    Effect.wireChunkBinary c6StReady.metadata.fileId 0
        (sliceChunk c6StReady.file.content 0) ∈
      (Streaming.bufferedAmountLowEvent c6Waiting true).2 :=
  ⟨C6_backpressure.2.2.1 c4StreamMid c6StReady
      (Streaming.HIGH_WATER_MARK + 1) true (by decide) rfl rfl (by decide)
      (by decide),
   C6_backpressure.2.2.2.1 c6Waiting
      { c6StReady with mode := Streaming.LoopMode.waitingForBuffer }
      0 true (by decide) rfl,
   C6_backpressure.2.2.2.2 c6Waiting
      { c6StReady with mode := Streaming.LoopMode.waitingForBuffer }
      (by decide) rfl⟩

/-- `getD` does not depend on the default inside the list's range. -/
theorem getD_default_irrel {α : Type} (l : List α) (n : Nat) (d d' : α)
    (h : n < l.length) : l.getD n d = l.getD n d' := by
  rw [List.getD_eq_getElem?_getD, List.getD_eq_getElem?_getD,
      List.getElem?_eq_getElem h]
  rfl

/-- Every slot of an all-`false` acknowledgement bitmap reads `false`. -/
theorem replicate_false_getD (n i : Nat) :
    (List.replicate n false).getD i false = false := by
  induction n generalizing i with
  | zero => simp [List.getD]
  | succ m ih =>
    cases i with
    | zero => simp [List.replicate]
    | succ j =>
      simp only [List.replicate, List.getD_cons_succ]
      exact ih j

/-- `pause` (acknowledged mode) emits exactly the paused status. -/
theorem acked_pause_effects (s : Acked.SenderState) :
    (Acked.pause s).2 = [Effect.statusInfo "Transfer paused."] := by
  unfold Acked.pause
  dsimp only
  cases s.sendingFileState <;> rfl

/-- `sendChunk` aimed at an unacknowledged index: any binary frame it emits
carries the active transfer's `fileId` and exactly that index, and the index
is still unacknowledged in the post-state (`sendChunk` never touches the
acknowledgement bitmap). -/
theorem sendChunk_unacked_inv (hash : Bytes → Nat) (s : Acked.SenderState)
    (i : Nat) (enc : Bool) (sf : Acked.SendingFileState)
    (hst : s.sendingFileState = some sf)
    (hun : sf.acknowledgedChunks.getD i false = false) :
    ∀ fid j data,
      Effect.wireChunkBinary fid j data ∈ (Acked.sendChunk hash s i enc).2 →
      ∃ sf', (Acked.sendChunk hash s i enc).1.sendingFileState = some sf' ∧
        sf'.metadata.fileId = fid ∧
        sf'.acknowledgedChunks.getD j false = false := by
  intro fid j data hmem
  unfold Acked.sendChunk at hmem ⊢
  rw [hst] at hmem ⊢
  dsimp only at hmem ⊢
  by_cases hg : i ≥ sf.metadata.totalChunks ∨ s.isPaused = true
  · rw [if_pos hg] at hmem
    simp at hmem
  · rw [if_neg hg] at hmem ⊢
    cases enc with
    | false => simp at hmem
    | true =>
      rw [if_pos (rfl : (true : Bool) = true)] at hmem ⊢
      simp only [List.mem_cons, List.not_mem_nil, or_false] at hmem
      rcases hmem with h | h
      · cases h
      · cases h
        exact ⟨_, rfl, rfl, hun⟩

/-- `startNextFileTransfer` (acknowledged mode): any binary frame it emits
belongs to the freshly dequeued file — chunk 0 against an all-`false`
bitmap. -/
theorem startNext_no_resend (hash : Bytes → Nat) (now : Nat)
    (s : Acked.SenderState) (enc : Bool) :
    ∀ fid j data,
      Effect.wireChunkBinary fid j data ∈
        (Acked.startNextFileTransfer hash now s enc).2 →
      ∃ sf', (Acked.startNextFileTransfer hash now s enc).1.sendingFileState =
          some sf' ∧
        sf'.metadata.fileId = fid ∧
        sf'.acknowledgedChunks.getD j false = false := by
  intro fid j data hmem
  unfold Acked.startNextFileTransfer at hmem ⊢
  revert hmem
  cases hq : s.filesToSend with
  | nil =>
    intro hmem
    simp at hmem
  | cons f rest =>
    intro hmem
    dsimp only at hmem ⊢
    simp only [List.mem_cons] at hmem
    rcases hmem with h | h | h
    · cases h
    · cases h
    · exact sendChunk_unacked_inv hash _ 0 enc _ rfl
        (replicate_false_getD _ 0) fid j data h

/-- For C5: across every acknowledged-mode step, a binary chunk frame is
emitted only for the currently active transfer and only at an index that is
still unacknowledged in the post-state — an already-acknowledged chunk is
never re-sent. -/
theorem acked_no_resend (hash : Bytes → Nat) (s : Acked.SenderState)
    (lbl : Acked.ALabel) :
    ∀ fid j data,
      Effect.wireChunkBinary fid j data ∈ (Acked.astep hash s lbl).2 →
      ∃ sf', (Acked.astep hash s lbl).1.sendingFileState = some sf' ∧
        sf'.metadata.fileId = fid ∧
        sf'.acknowledgedChunks.getD j false = false := by
  intro fid j data hmem
  cases lbl with
  | pause =>
    dsimp only [Acked.astep] at hmem
    rw [acked_pause_effects s] at hmem
    simp at hmem
  | sendFiles files now enc =>
    dsimp only [Acked.astep] at hmem ⊢
    unfold Acked.sendFiles at hmem ⊢
    by_cases hemp : files.isEmpty = true
    · rw [if_pos hemp] at hmem
      simp at hmem
    · rw [if_neg hemp] at hmem ⊢
      dsimp only at hmem ⊢
      revert hmem
      by_cases hnone :
          ({ s with filesToSend := files } : Acked.SenderState).sendingFileState.isNone = true
      · rw [if_pos hnone]
        intro hmem
        exact startNext_no_resend hash now _ enc fid j data hmem
      · rw [if_neg hnone]
        intro hmem
        simp at hmem
  | fileReceivedAck fid0 now enc =>
    dsimp only [Acked.astep] at hmem ⊢
    unfold Acked.handleFileReceivedAck at hmem ⊢
    revert hmem
    cases hst : s.sendingFileState with
    | none =>
      intro hmem
      simp at hmem
    | some st =>
      dsimp only
      by_cases heq : st.metadata.fileId = fid0
      · rw [if_pos heq]
        intro hmem
        simp only [List.mem_cons] at hmem
        rcases hmem with h | h | h
        · cases h
        · cases h
        · exact startNext_no_resend hash now s enc fid j data h
      · rw [if_neg heq]
        intro hmem
        simp at hmem
  | chunkAck fid0 ci enc =>
    dsimp only [Acked.astep] at hmem ⊢
    unfold Acked.handleChunkAck at hmem ⊢
    revert hmem
    cases hst : s.sendingFileState with
    | none =>
      intro hmem
      simp at hmem
    | some sf =>
      dsimp only
      by_cases hne : sf.metadata.fileId ≠ fid0
      · rw [if_pos hne]
        intro hmem
        simp at hmem
      · rw [if_neg hne]
        by_cases haa : sf.acknowledgedChunks.getD ci false = true
        · rw [if_pos haa, if_pos haa]
          cases hidx : indexOfFalse sf.acknowledgedChunks with
          | none =>
            intro hmem
            simp at hmem
          | some n =>
            dsimp only
            by_cases hip : s.isPaused = true
            · rw [if_pos hip]
              intro hmem
              simp at hmem
            · rw [if_neg hip]
              intro hmem
              dsimp only at hmem ⊢
              rcases List.mem_append.mp hmem with h | h
              · simp at h
              · obtain ⟨h1, h2, _⟩ := indexOfFalse_spec hidx
                exact sendChunk_unacked_inv hash _ n enc _ rfl
                  (by rw [getD_default_irrel _ n false true h1]; exact h2)
                  fid j data h
        · rw [if_neg haa, if_neg haa]
          cases hidx : indexOfFalse (sf.acknowledgedChunks.set ci true) with
          | none =>
            intro hmem
            simp at hmem
          | some n =>
            dsimp only
            by_cases hip : s.isPaused = true
            · rw [if_pos hip]
              intro hmem
              simp at hmem
            · rw [if_neg hip]
              intro hmem
              dsimp only at hmem ⊢
              rcases List.mem_append.mp hmem with h | h
              · simp at h
              · obtain ⟨h1, h2, _⟩ := indexOfFalse_spec hidx
                exact sendChunk_unacked_inv hash _ n enc _ rfl
                  (by rw [getD_default_irrel _ n false true h1]; exact h2)
                  fid j data h
  | timerFire tid enc =>
    dsimp only [Acked.astep] at hmem ⊢
    unfold Acked.timerFire at hmem ⊢
    revert hmem
    cases hft : s.liveTimers.find? (fun t => t.id == tid) with
    | none =>
      intro hmem
      simp at hmem
    | some t =>
      dsimp only
      cases hst : s.sendingFileState with
      | none =>
        intro hmem
        simp at hmem
      | some sf =>
        dsimp only
        by_cases hact : sf.metadata.fileId = t.fileId ∧
            sf.acknowledgedChunks.getD t.chunkIndex false = false
        · rw [if_pos (decide_eq_true hact)]
          intro hmem
          dsimp only at hmem ⊢
          simp only [List.mem_cons] at hmem
          rcases hmem with h | h
          · cases h
          · exact sendChunk_unacked_inv hash _ t.chunkIndex enc sf
              (by rw [← hst]) hact.2 fid j data h
        · rw [if_neg (by simp only [decide_eq_true_eq]; exact hact)]
          intro hmem
          simp at hmem
  | resume enc =>
    dsimp only [Acked.astep] at hmem ⊢
    unfold Acked.resume at hmem ⊢
    revert hmem
    cases hst : s.sendingFileState with
    | none =>
      intro hmem
      simp at hmem
    | some sf =>
      dsimp only
      by_cases hip : s.isPaused = false
      · rw [if_pos hip]
        intro hmem
        simp at hmem
      · rw [if_neg hip]
        cases hidx : indexOfFalse sf.acknowledgedChunks with
        | none =>
          intro hmem
          simp at hmem
        | some n =>
          intro hmem
          dsimp only at hmem ⊢
          simp only [List.mem_cons] at hmem
          rcases hmem with h | h
          · cases h
          · obtain ⟨h1, h2, _⟩ := indexOfFalse_spec hidx
            exact sendChunk_unacked_inv hash _ n enc sf rfl
              (by rw [getD_default_irrel _ n false true h1]; exact h2)
              fid j data h

/-- What `pause` (acknowledged mode) does, exactly: it sets the flag,
clears every per-chunk timer slot, and removes from the pending set
precisely those timers whose id is recorded in a slot — a pending timer
whose slot was overwritten survives. -/
theorem acked_pause_exact (s : Acked.SenderState)
    (sf : Acked.SendingFileState)
    (hst : s.sendingFileState = some sf) :
    (Acked.pause s).1.isPaused = true ∧
    (Acked.pause s).1.sendingFileState =
      some { sf with retransmissionTimers :=
        List.replicate sf.retransmissionTimers.length none } ∧
    (Acked.pause s).1.liveTimers =
      s.liveTimers.filter
        (fun t => !(sf.retransmissionTimers.contains (some t.id))) := by
  unfold Acked.pause
  dsimp only
  rw [hst]
  dsimp only
  exact ⟨rfl, rfl, rfl⟩

/-- `pause` (acknowledged mode) cancels every timer that is recorded in the
active transfer's per-chunk timer slots. -/
theorem acked_pause_cancels_recorded (s : Acked.SenderState)
    (sf : Acked.SendingFileState) (t : Acked.TimerEntry)
    (hst : s.sendingFileState = some sf)
    (hc : sf.retransmissionTimers.contains (some t.id) = true) :
    t ∉ (Acked.pause s).1.liveTimers := by
  intro hmem
  unfold Acked.pause at hmem
  dsimp only at hmem
  rw [hst] at hmem
  dsimp only at hmem
  rw [List.mem_filter] at hmem
  rw [hc] at hmem
  exact absurd hmem.2 (by simp)

/-- `sendChunk` transmits nothing while the transfer is paused. -/
theorem sendChunk_paused (hash : Bytes → Nat) (s : Acked.SenderState)
    (i : Nat) (enc : Bool) (hp : s.isPaused = true) :
    Acked.sendChunk hash s i enc = (s, []) := by
  unfold Acked.sendChunk
  cases hst : s.sendingFileState with
  | none => rfl
  | some sf =>
    dsimp only
    rw [if_pos (Or.inr hp)]

/-- A retransmission timer that fires while the manager is paused transmits
no chunk: the callback's `sendChunk` returns immediately. -/
theorem timerFire_paused_no_chunk (hash : Bytes → Nat)
    (s : Acked.SenderState) (tid : Nat) (enc : Bool)
    (hp : s.isPaused = true) (fid : String) (j : Nat) (data : Bytes) :
    Effect.wireChunkBinary fid j data ∉ (Acked.timerFire hash s tid enc).2 := by
  intro hmem
  unfold Acked.timerFire at hmem
  revert hmem
  cases hft : s.liveTimers.find? (fun t => t.id == tid) with
  | none =>
    intro hmem
    simp at hmem
  | some t =>
    dsimp only
    cases hst : s.sendingFileState with
    | none =>
      dsimp only
      rw [if_neg (show ¬((false : Bool) = true) by simp)]
      intro hmem
      simp at hmem
    | some sf =>
      dsimp only
      by_cases hd : sf.metadata.fileId = t.fileId ∧
          sf.acknowledgedChunks.getD t.chunkIndex false = false
      · rw [if_pos (decide_eq_true hd)]
        rw [sendChunk_paused hash
              { filesToSend := s.filesToSend, sendingFileState := some sf,
                isPaused := s.isPaused,
                liveTimers := List.filter (fun u => !(u.id == tid)) s.liveTimers,
                nextTimerId := s.nextTimerId }
              t.chunkIndex enc hp]
        intro hmem
        simp at hmem
      · rw [if_neg (by simp only [decide_eq_true_eq]; exact hd)]
        intro hmem
        simp at hmem

/-- `resume` (acknowledged mode) continues from the first unacknowledged
index: `indexOf(false)` picks an in-range index that is unacknowledged while
everything before it is acknowledged, and `resume` sends exactly that
chunk. -/
theorem acked_resume_first_unacked (hash : Bytes → Nat)
    (s : Acked.SenderState) (sf : Acked.SendingFileState) (n : Nat)
    (hst : s.sendingFileState = some sf)
    (hp : s.isPaused = true)
    (hlen : sf.acknowledgedChunks.length = sf.metadata.totalChunks)
    (hidx : indexOfFalse sf.acknowledgedChunks = some n) :
    sf.acknowledgedChunks.getD n false = false ∧
    (∀ m, m < n → sf.acknowledgedChunks.getD m false = true) ∧
    Effect.wireChunkBinary sf.metadata.fileId n (sf.chunks.getD n []) ∈
      (Acked.resume hash s true).2 := by
  obtain ⟨h1, h2, h3⟩ := indexOfFalse_spec hidx
  have hntot : n < sf.metadata.totalChunks := hlen ▸ h1
  refine ⟨by rw [getD_default_irrel _ n false true h1]; exact h2, h3, ?_⟩
  unfold Acked.resume
  rw [hst]
  dsimp only
  rw [if_neg (by rw [hp]; intro hx; cases hx), hidx]
  dsimp only
  unfold Acked.sendChunk
  dsimp only
  rw [if_neg (show ¬(n ≥ sf.metadata.totalChunks ∨ (false : Bool) = true) by
        rintro (hx | hx)
        · omega
        · cases hx)]
  rw [if_pos (rfl : (true : Bool) = true)]
  simp

/-- The streaming loop sends chunks strictly in order: an unobstructed
iteration sends exactly the chunk at index `sentChunksCount` (the first
unsent one — nothing is skipped, nothing is re-sent) and advances the
counter by one; `pause` and `resume` leave the transfer record (and with it
`sentChunksCount`) untouched. -/
theorem streaming_sends_in_order (s : Streaming.SenderState)
    (st : Streaming.SendingFileState) (buffered : Nat)
    (hst : s.sendingFileState = some st)
    (hmode : st.mode = Streaming.LoopMode.ready)
    (hp : s.isPaused = false)
    (hlt : st.sentChunksCount < st.metadata.totalChunks)
    (hbuf : ¬ buffered > Streaming.HIGH_WATER_MARK) :
    Streaming.streamFileStep s buffered true =
      ({ s with sendingFileState := some { st with
          sentChunksCount := st.sentChunksCount + 1,
          mode := Streaming.LoopMode.ready } },
       [Effect.wireChunkMetadata
          { fileId := st.metadata.fileId, chunkIndex := st.sentChunksCount
            size := (sliceChunk st.file.content st.sentChunksCount).length
            checksum := none },
        Effect.wireChunkBinary st.metadata.fileId st.sentChunksCount
          (sliceChunk st.file.content st.sentChunksCount),
        Effect.fileProgress st.metadata.fileId st.metadata.name
          (roundPct (st.sentChunksCount + 1) st.metadata.totalChunks)]) := by
  unfold Streaming.streamFileStep
  rw [hst]
  dsimp only
  rw [if_neg (by rw [hmode]; intro hx; cases hx),
      if_neg (show ¬ st.sentChunksCount ≥ st.metadata.totalChunks by omega),
      if_neg (by rw [hp]; intro hx; cases hx),
      if_neg hbuf]
  unfold Streaming.sendCurrentChunk
  rw [if_pos (rfl : (true : Bool) = true)]

/-- Claim C5 (amended): pause followed by resume continues from the first
unacknowledged index (acknowledged mode: first `false` entry of the ack
bitmap) or the first unsent index (streaming mode: `sentChunksCount`),
never re-sending an already-acknowledged chunk and never skipping an unsent
chunk.  `pause` cancels every retransmission timer recorded in the
transfer's per-chunk timer slots and removes exactly those from the pending
set — not necessarily every live timer: a pending timer whose slot was
overwritten by a duplicate-ack-triggered re-send survives (see the
counterexample) — and a timer that fires while paused transmits no
chunk. -/
theorem C5_pause_resume :
    (∀ (s : Acked.SenderState) (sf : Acked.SendingFileState),
      s.sendingFileState = some sf →
      (Acked.pause s).1.isPaused = true ∧
      (Acked.pause s).1.sendingFileState =
        some { sf with retransmissionTimers := List.replicate sf.retransmissionTimers.length none } ∧
      (Acked.pause s).1.liveTimers =
        s.liveTimers.filter
          (fun t => !(sf.retransmissionTimers.contains (some t.id)))) ∧
    (∀ (s : Acked.SenderState) (sf : Acked.SendingFileState)
        (t : Acked.TimerEntry),
      s.sendingFileState = some sf →
      sf.retransmissionTimers.contains (some t.id) = true →
      t ∉ (Acked.pause s).1.liveTimers) ∧
    (∀ (hash : Bytes → Nat) (s : Acked.SenderState) (tid : Nat) (enc : Bool),
      s.isPaused = true →
      ∀ (fid : String) (j : Nat) (data : Bytes),
        Effect.wireChunkBinary fid j data ∉
          (Acked.timerFire hash s tid enc).2) ∧
    (∀ (hash : Bytes → Nat) (s : Acked.SenderState)
        (sf : Acked.SendingFileState) (n : Nat),
      s.sendingFileState = some sf →
      s.isPaused = true →
      sf.acknowledgedChunks.length = sf.metadata.totalChunks →
      indexOfFalse sf.acknowledgedChunks = some n →
      sf.acknowledgedChunks.getD n false = false ∧
      (∀ m, m < n → sf.acknowledgedChunks.getD m false = true) ∧
      Effect.wireChunkBinary sf.metadata.fileId n (sf.chunks.getD n []) ∈
        (Acked.resume hash s true).2) ∧
    (∀ (hash : Bytes → Nat) (s : Acked.SenderState) (lbl : Acked.ALabel)
        (fid : String) (j : Nat) (data : Bytes),
      Effect.wireChunkBinary fid j data ∈ (Acked.astep hash s lbl).2 →
      ∃ sf', (Acked.astep hash s lbl).1.sendingFileState = some sf' ∧
        sf'.metadata.fileId = fid ∧
        sf'.acknowledgedChunks.getD j false = false) ∧
    (∀ s : Streaming.SenderState,
      (Streaming.pause s).1.sendingFileState = s.sendingFileState ∧
      (Streaming.resume s).1.sendingFileState = s.sendingFileState) ∧
    (∀ (s : Streaming.SenderState) (st : Streaming.SendingFileState)
        (buffered : Nat),
      s.sendingFileState = some st →
      st.mode = Streaming.LoopMode.ready →
      s.isPaused = false →
      st.sentChunksCount < st.metadata.totalChunks →
      ¬ buffered > Streaming.HIGH_WATER_MARK →
      Streaming.streamFileStep s buffered true =
        ({ s with sendingFileState := some { st with
            sentChunksCount := st.sentChunksCount + 1,
            mode := Streaming.LoopMode.ready } },
         [Effect.wireChunkMetadata
            { fileId := st.metadata.fileId, chunkIndex := st.sentChunksCount
              size := (sliceChunk st.file.content st.sentChunksCount).length
              checksum := none },
          Effect.wireChunkBinary st.metadata.fileId st.sentChunksCount
            (sliceChunk st.file.content st.sentChunksCount),
          Effect.fileProgress st.metadata.fileId st.metadata.name
            (roundPct (st.sentChunksCount + 1) st.metadata.totalChunks)])) :=
  ⟨acked_pause_exact,
   acked_pause_cancels_recorded,
   timerFire_paused_no_chunk,
   acked_resume_first_unacked,
   acked_no_resend,
   fun s => ⟨rfl, by unfold Streaming.resume; split <;> rfl⟩,
   streaming_sends_in_order⟩

/-- Acknowledged-mode transfer record paused mid-file: chunk 0 acked,
chunk 1 outstanding. -/
def c5Sf : Acked.SendingFileState :=
  { file := { name := "b.bin", content := [4, 5] }
    metadata :=
      { fileId := "f2", name := "b.bin", size := 2, totalChunks := 2,
        fullFileChecksum := 9 }
    chunks := [[4], [5]]
    acknowledgedChunks := [true, false]
    retransmissionTimers := [none, none] }

/-- Paused sender holding `c5Sf`. -/
def c5Paused : Acked.SenderState :=
  { filesToSend := [], sendingFileState := some c5Sf, isPaused := true,
    liveTimers := [], nextTimerId := 7 }

/-- The transfer record inside `c9Mid`. -/
def c9MidSf : Acked.SendingFileState :=
  { file := { name := "a.bin", content := [1, 2, 3] }
    metadata := mkMetadata sampleHash { name := "a.bin", content := [1, 2, 3] } 1
    chunks := [[1, 2, 3]]
    acknowledgedChunks := [false]
    retransmissionTimers := [some 0] }

/-- Witness for C5 (amended) at concrete states: pausing `c9Mid` sets the
flag, clears the slots and cancels its recorded timer 0; a timer firing on
the paused state transmits nothing; resuming `c5Paused` re-sends exactly
chunk 1 (the first unacknowledged); a concrete timer-fire resend lands on an
unacknowledged index; streaming pause/resume preserve the record and an
iteration of `c4StreamMid` sends exactly chunk 0. -/
theorem C5_pause_resume_witness :
    ((Acked.pause c9Mid).1.isPaused = true ∧
     (Acked.pause c9Mid).1.sendingFileState =
       some { c9MidSf with retransmissionTimers := List.replicate c9MidSf.retransmissionTimers.length none } ∧
     (Acked.pause c9Mid).1.liveTimers =
       c9Mid.liveTimers.filter
         (fun t => !(c9MidSf.retransmissionTimers.contains (some t.id)))) ∧
    ({ id := 0, fileId := "a.bin-3-1", chunkIndex := 0,
       fileName := "a.bin" } : Acked.TimerEntry) ∉
      (Acked.pause c9Mid).1.liveTimers ∧
    Effect.wireChunkBinary "a.bin-3-1" 0 [1, 2, 3] ∉
      (Acked.timerFire sampleHash (Acked.pause c9Mid).1 0 true).2 ∧
    (c5Sf.acknowledgedChunks.getD 1 false = false ∧
     (∀ m, m < 1 → c5Sf.acknowledgedChunks.getD m false = true) ∧
     Effect.wireChunkBinary c5Sf.metadata.fileId 1 (c5Sf.chunks.getD 1 []) ∈
       (Acked.resume sampleHash c5Paused true).2) ∧
    (∃ sf', (Acked.astep sampleHash c9Mid
          (Acked.ALabel.timerFire 0 true)).1.sendingFileState = some sf' ∧
      sf'.metadata.fileId = "a.bin-3-1" ∧
      sf'.acknowledgedChunks.getD 0 false = false) ∧
    ((Streaming.pause c4StreamMid).1.sendingFileState =
        c4StreamMid.sendingFileState ∧
     (Streaming.resume c4StreamMid).1.sendingFileState =
        c4StreamMid.sendingFileState) ∧
    Streaming.streamFileStep c4StreamMid 0 true =
      ({ c4StreamMid with sendingFileState := some { c6StReady with
          sentChunksCount := c6StReady.sentChunksCount + 1,
          mode := Streaming.LoopMode.ready } },
       [Effect.wireChunkMetadata
          { fileId := c6StReady.metadata.fileId
            chunkIndex := c6StReady.sentChunksCount
            size := (sliceChunk c6StReady.file.content c6StReady.sentChunksCount).length
            checksum := none },
        Effect.wireChunkBinary c6StReady.metadata.fileId
          c6StReady.sentChunksCount
          (sliceChunk c6StReady.file.content c6StReady.sentChunksCount),
        Effect.fileProgress c6StReady.metadata.fileId c6StReady.metadata.name
          (roundPct (c6StReady.sentChunksCount + 1)
            c6StReady.metadata.totalChunks)]) :=
  ⟨C5_pause_resume.1 c9Mid c9MidSf (by decide),
   C5_pause_resume.2.1 c9Mid c9MidSf
     { id := 0, fileId := "a.bin-3-1", chunkIndex := 0, fileName := "a.bin" }
     (by decide) (by decide),
   C5_pause_resume.2.2.1 sampleHash (Acked.pause c9Mid).1 0 true (by decide)
     "a.bin-3-1" 0 [1, 2, 3],
   C5_pause_resume.2.2.2.1 sampleHash c5Paused c5Sf 1 rfl rfl (by decide)
     (by decide),
   C5_pause_resume.2.2.2.2.1 sampleHash c9Mid (Acked.ALabel.timerFire 0 true)
     "a.bin-3-1" 0 [1, 2, 3] (by decide),
   C5_pause_resume.2.2.2.2.2.1 c4StreamMid,
   C5_pause_resume.2.2.2.2.2.2 c4StreamMid c6StReady 0 (by decide) rfl rfl
     (by decide) (by decide)⟩

/-- A two-chunk file: 64 KiB + 1 zero bytes, the smallest input with more
than one chunk. -/
def bigFile : FileData := { name := "big.bin", content := List.replicate 65537 0 }

/-- The metadata the sender builds for `bigFile` at `Date.now() = 1`:
`ceil(65537 / 65536) = 2` chunks, and the digest of the all-zero content
under `sampleHash` is 0. -/
def bigMd : FileMetadata :=
  { fileId := "big.bin-65537-1", name := "big.bin", size := 65537,
    totalChunks := 2, fullFileChecksum := 0 }

/-- The sender state right after `sendFiles [bigFile]`: chunk 0 is in
flight with retransmission timer 0 pending and recorded in slot 0. -/
def c5BigMid : Acked.SenderState :=
  { filesToSend := []
    sendingFileState := some
      { file := bigFile
        metadata := bigMd
        chunks := [List.replicate 65536 0, List.replicate 1 0]
        acknowledgedChunks := [false, false]
        retransmissionTimers := [some 0, none] }
    isPaused := false
    liveTimers := [{ id := 0, fileId := "big.bin-65537-1", chunkIndex := 0,
                     fileName := "big.bin" }]
    nextTimerId := 1 }

/-- `sendFiles [f]` from the idle sender, for any file with at least one
chunk: the head is dequeued, its chunks are pre-sliced, and chunk 0 goes
out with retransmission timer 0 recorded in slot 0. -/
theorem sendFiles_idle_symbolic (hash : Bytes → Nat) (now : Nat) (f : FileData)
    (htc : 0 < (mkMetadata hash f now).totalChunks) :
    (Acked.sendFiles hash now c9Start [f] true).1 =
      { filesToSend := []
        sendingFileState := some { file := f, metadata := mkMetadata hash f now, chunks := (List.range (mkMetadata hash f now).totalChunks).map (sliceChunk f.content), acknowledgedChunks := List.replicate (mkMetadata hash f now).totalChunks false, retransmissionTimers := (List.replicate (mkMetadata hash f now).totalChunks none).set 0 (some 0) }
        isPaused := false
        liveTimers := [{ id := 0, fileId := (mkMetadata hash f now).fileId, chunkIndex := 0, fileName := (mkMetadata hash f now).name }]
        nextTimerId := 1 } := by
  unfold Acked.sendFiles
  rw [if_neg (show ¬(List.isEmpty [f] = true) by simp)]
  dsimp only
  rw [if_pos (show (({ c9Start with filesToSend := [f] } : Acked.SenderState).sendingFileState.isNone = true) from rfl)]
  unfold Acked.startNextFileTransfer
  dsimp only
  unfold Acked.sendChunk
  dsimp only
  rw [if_neg (show ¬(0 ≥ (mkMetadata hash f now).totalChunks ∨ c9Start.isPaused = true) by
        rintro (hx | hx)
        · omega
        · exact absurd hx (by decide))]
  rw [if_pos (rfl : (true : Bool) = true)]
  dsimp only
  rfl

/-- `c5BigMid` is exactly the state `sendFiles [bigFile]` reaches from the
idle sender. -/
theorem c5BigMid_reachable :
    (Acked.astep sampleHash c9Start
      (Acked.ALabel.sendFiles [bigFile] 1 true)).1 = c5BigMid := by
  have hlen : bigFile.content.length = 65537 := by
    show (List.replicate 65537 (0 : Nat)).length = 65537
    rw [List.length_replicate]
  have hsum : sampleHash bigFile.content = 0 := by
    show (List.replicate 65537 (0 : Nat)).sum = 0
    rw [List.sum_replicate, smul_zero]
  have hmd : mkMetadata sampleHash bigFile 1 = bigMd := by
    unfold mkMetadata bigMd
    rw [hlen, hsum]
    rfl
  have hslice0 : sliceChunk bigFile.content 0 = List.replicate 65536 0 := by
    show ((List.replicate 65537 (0 : Nat)).drop (0 * chunkSize)).take chunkSize =
      List.replicate 65536 0
    rw [List.drop_replicate, List.take_replicate]
    norm_num [chunkSize]
  have hslice1 : sliceChunk bigFile.content 1 = List.replicate 1 0 := by
    show ((List.replicate 65537 (0 : Nat)).drop (1 * chunkSize)).take chunkSize =
      List.replicate 1 0
    rw [List.drop_replicate, List.take_replicate]
    norm_num [chunkSize]
  show (Acked.sendFiles sampleHash 1 c9Start [bigFile] true).1 = c5BigMid
  rw [sendFiles_idle_symbolic sampleHash 1 bigFile (by rw [hmd]; decide)]
  rw [hmd]
  unfold c5BigMid
  rw [show List.range bigMd.totalChunks = [0, 1] from rfl]
  rw [List.map_cons, List.map_cons, List.map_nil, hslice0, hslice1]
  rfl

/-- The duplicate-ack trace from the idle sender: send `bigFile`, receive
the ack for chunk 0, receive a duplicated ack for chunk 0 (the receiver
acks every checksum-valid chunk, duplicates included, and the transport is
at-least-once), then pause. -/
def c5OrphanTrace : List Acked.ALabel :=
  [Acked.ALabel.sendFiles [bigFile] 1 true,
   Acked.ALabel.chunkAck "big.bin-65537-1" 0 true,
   Acked.ALabel.chunkAck "big.bin-65537-1" 0 true,
   Acked.ALabel.pause]

/-- Unfolding one step of `arun` in its resulting state. -/
theorem arun_cons_fst (hash : Bytes → Nat) (s : Acked.SenderState)
    (l : Acked.ALabel) (ls : List Acked.ALabel) :
    (Acked.arun hash s (l :: ls)).1 =
      (Acked.arun hash (Acked.astep hash s l).1 ls).1 := rfl

set_option maxRecDepth 8000 in
/-- Counterexample to claim C5 as stated ("pause also cancels all live
per-chunk retransmission timers"): in the reachable trace `c5OrphanTrace`,
the duplicated chunk-0 ack makes `handleChunkAck` re-send the in-flight
chunk 1, overwriting slot 1 with fresh timer 2 while timer 1 is still
pending; `pause` then clears only the slot-recorded timer 2, so after the
pause the paused transfer still has the live per-chunk retransmission timer
1 (for its still-unacknowledged chunk 1) pending — pause did NOT cancel
every live per-chunk retransmission timer. -/
theorem C5_counterexample :
    (Acked.arun sampleHash c9Start c5OrphanTrace).1.isPaused = true ∧
    (Acked.arun sampleHash c9Start c5OrphanTrace).1.liveTimers =
      [{ id := 1, fileId := "big.bin-65537-1", chunkIndex := 1,
         fileName := "big.bin" }] ∧
    ((Acked.arun sampleHash c9Start c5OrphanTrace).1.sendingFileState.map
        (fun sf => sf.metadata.fileId)) = some "big.bin-65537-1" ∧
    ((Acked.arun sampleHash c9Start c5OrphanTrace).1.sendingFileState.map
        (fun sf => sf.acknowledgedChunks.getD 1 false)) = some false := by
  have harun : (Acked.arun sampleHash c9Start c5OrphanTrace).1 =
      (Acked.arun sampleHash c5BigMid
        [Acked.ALabel.chunkAck "big.bin-65537-1" 0 true,
         Acked.ALabel.chunkAck "big.bin-65537-1" 0 true,
         Acked.ALabel.pause]).1 := by
    unfold c5OrphanTrace
    rw [arun_cons_fst, c5BigMid_reachable]
  rw [harun]
  refine ⟨by decide, by decide, by decide, by decide⟩

/-- A `streamFile` loop iteration never changes which file is active. -/
theorem activeFileId_streamFileStep (s : Streaming.SenderState)
    (buffered : Nat) (encryptOk : Bool) :
    Streaming.activeFileId (Streaming.streamFileStep s buffered encryptOk).1 =
      Streaming.activeFileId s := by
  unfold Streaming.streamFileStep Streaming.sendCurrentChunk
    Streaming.activeFileId
  cases hst : s.sendingFileState with
  | none => simp [hst]
  | some st =>
    dsimp only
    split
    · simp [hst]
    · split
      · simp [hst]
      · split
        · simp [hst]
        · split
          · simp [hst]
          · split
            · simp [hst]
            · simp [hst]

/-- The `bufferedamountlow` event never changes which file is active. -/
theorem activeFileId_bufferLow (s : Streaming.SenderState) (encryptOk : Bool) :
    Streaming.activeFileId (Streaming.bufferedAmountLowEvent s encryptOk).1 =
      Streaming.activeFileId s := by
  unfold Streaming.bufferedAmountLowEvent Streaming.sendCurrentChunk
    Streaming.activeFileId
  cases hst : s.sendingFileState with
  | none => simp [hst]
  | some st =>
    dsimp only
    split
    · split
      · simp [hst]
      · simp [hst]
    · simp [hst]

/-- `pause` and `resume` never change which file is active. -/
theorem activeFileId_pause_resume (s : Streaming.SenderState) :
    Streaming.activeFileId (Streaming.pause s).1 = Streaming.activeFileId s ∧
    Streaming.activeFileId (Streaming.resume s).1 = Streaming.activeFileId s := by
  constructor
  · rfl
  · unfold Streaming.resume Streaming.activeFileId
    split
    · rfl
    · rfl

/-- `startNextFileTransfer` (streaming) emits no binary chunk frame. -/
theorem startNext_no_chunk (hash : Bytes → Nat) (now : Nat)
    (s : Streaming.SenderState) (fid : String) (j : Nat) (data : Bytes) :
    Effect.wireChunkBinary fid j data ∉
      (Streaming.startNextFileTransfer hash now s).2 := by
  unfold Streaming.startNextFileTransfer
  cases hq : s.filesToSend with
  | nil => simp
  | cons f rest => simp

/-- Every binary chunk frame a streaming-sender step emits belongs to the
file that was active when the step ran. -/
theorem step_chunk_only_active (hash : Bytes → Nat)
    (s : Streaming.SenderState) (lbl : Streaming.SLabel)
    (fid : String) (j : Nat) (data : Bytes) :
    Effect.wireChunkBinary fid j data ∈ (Streaming.step hash s lbl).2 →
    Streaming.activeFileId s = some fid := by
  intro hmem
  cases lbl with
  | sendFiles files now =>
    dsimp only [Streaming.step] at hmem
    unfold Streaming.sendFiles at hmem
    revert hmem
    by_cases hemp : files.isEmpty = true
    · rw [if_pos hemp]
      intro hmem
      simp at hmem
    · rw [if_neg hemp]
      dsimp only
      by_cases hnone :
          ({ s with filesToSend := files } : Streaming.SenderState).sendingFileState.isNone = true
      · rw [if_pos hnone]
        intro hmem
        exact absurd hmem (startNext_no_chunk hash now _ fid j data)
      · rw [if_neg hnone]
        intro hmem
        simp at hmem
  | streamStep buffered enc =>
    dsimp only [Streaming.step] at hmem
    unfold Streaming.streamFileStep Streaming.sendCurrentChunk at hmem
    revert hmem
    cases hst : s.sendingFileState with
    | none =>
      intro hmem
      simp at hmem
    | some st =>
      dsimp only
      split
      · intro hmem
        simp at hmem
      · split
        · intro hmem
          simp at hmem
        · split
          · intro hmem
            simp at hmem
          · split
            · intro hmem
              simp at hmem
            · split
              · intro hmem
                simp only [List.mem_cons, List.not_mem_nil, or_false] at hmem
                rcases hmem with h | h | h
                · cases h
                · injection h with h1 h2 h3
                  simp [Streaming.activeFileId, hst, h1]
                · cases h
              · intro hmem
                simp at hmem
  | bufferLow enc =>
    dsimp only [Streaming.step] at hmem
    unfold Streaming.bufferedAmountLowEvent Streaming.sendCurrentChunk at hmem
    revert hmem
    cases hst : s.sendingFileState with
    | none =>
      intro hmem
      simp at hmem
    | some st =>
      dsimp only
      split
      · split
        · intro hmem
          simp only [List.mem_cons, List.not_mem_nil, or_false] at hmem
          rcases hmem with h | h | h
          · cases h
          · injection h with h1 h2 h3
            simp [Streaming.activeFileId, hst, h1]
          · cases h
        · intro hmem
          simp at hmem
      · intro hmem
        simp at hmem
  | pause =>
    dsimp only [Streaming.step] at hmem
    unfold Streaming.pause at hmem
    simp at hmem
  | resume =>
    dsimp only [Streaming.step] at hmem
    unfold Streaming.resume at hmem
    revert hmem
    split
    · intro hmem
      simp at hmem
    · intro hmem
      simp at hmem
  | fileReceivedAck fid0 now =>
    dsimp only [Streaming.step] at hmem
    unfold Streaming.handleFileReceivedAck at hmem
    revert hmem
    cases hst : s.sendingFileState with
    | none =>
      intro hmem
      simp at hmem
    | some st =>
      dsimp only
      split
      · intro hmem
        simp only [List.mem_cons] at hmem
        rcases hmem with h | h | h
        · cases h
        · cases h
        · exact absurd h (startNext_no_chunk hash now s fid j data)
      · intro hmem
        simp at hmem

/-- Claim C2: queued files are dequeued in FIFO submission order; a queued
file starts only when `file-received-ack` for the previous file arrives (the
transfer-start handler takes exactly the queue head; no other step changes
the active file; every transmitted chunk belongs to the active file; an ack
for a non-active file is ignored) — so no chunk of file N+1 is transmitted
before file N is fully acknowledged; and an ack that finds the queue empty
emits the terminal "all sent" success status. -/
theorem C2_fifo_ack_driven :
    (∀ (hash : Bytes → Nat) (now : Nat) (s : Streaming.SenderState)
        (f : FileData) (rest : List FileData),
      s.filesToSend = f :: rest →
      (Streaming.startNextFileTransfer hash now s).1.filesToSend = rest ∧
      (Streaming.startNextFileTransfer hash now s).1.sendingFileState =
        some { file := f, metadata := mkMetadata hash f now,
               sentChunksCount := 0, mode := Streaming.LoopMode.ready } ∧
      Effect.wireFileMetadata (mkMetadata hash f now) ∈
        (Streaming.startNextFileTransfer hash now s).2) ∧
    (∀ (hash : Bytes → Nat) (s : Streaming.SenderState)
        (buffered : Nat) (encryptOk : Bool),
      Streaming.activeFileId
          (Streaming.step hash s (Streaming.SLabel.streamStep buffered encryptOk)).1 =
        Streaming.activeFileId s ∧
      Streaming.activeFileId
          (Streaming.step hash s (Streaming.SLabel.bufferLow encryptOk)).1 =
        Streaming.activeFileId s ∧
      Streaming.activeFileId
          (Streaming.step hash s Streaming.SLabel.pause).1 =
        Streaming.activeFileId s ∧
      Streaming.activeFileId
          (Streaming.step hash s Streaming.SLabel.resume).1 =
        Streaming.activeFileId s) ∧
    (∀ (hash : Bytes → Nat) (s : Streaming.SenderState)
        (lbl : Streaming.SLabel) (fid : String) (j : Nat) (data : Bytes),
      Effect.wireChunkBinary fid j data ∈ (Streaming.step hash s lbl).2 →
      Streaming.activeFileId s = some fid) ∧
    (∀ (hash : Bytes → Nat) (now : Nat) (s : Streaming.SenderState)
        (fid : String),
      Streaming.activeFileId s ≠ some fid →
      Streaming.handleFileReceivedAck hash now s fid = (s, [])) ∧
    (∀ (hash : Bytes → Nat) (now : Nat) (s : Streaming.SenderState)
        (st : Streaming.SendingFileState),
      s.sendingFileState = some st →
      s.filesToSend = [] →
      Streaming.handleFileReceivedAck hash now s st.metadata.fileId =
        ({ s with sendingFileState := none },
         [Effect.statusSuccess ("Peer confirmed receipt of " ++ st.file.name ++ "."),
          Effect.fileSent st.file.name,
          Effect.statusSuccess "All files have been sent successfully!"])) ∧
    (∀ (hash : Bytes → Nat) (now : Nat) (s : Streaming.SenderState)
        (st : Streaming.SendingFileState) (f : FileData) (rest : List FileData),
      s.sendingFileState = some st →
      s.filesToSend = f :: rest →
      (Streaming.handleFileReceivedAck hash now s st.metadata.fileId).1.filesToSend = rest ∧
      (Streaming.handleFileReceivedAck hash now s st.metadata.fileId).1.sendingFileState =
        some { file := f, metadata := mkMetadata hash f now,
               sentChunksCount := 0, mode := Streaming.LoopMode.ready } ∧
      Effect.wireFileMetadata (mkMetadata hash f now) ∈
        (Streaming.handleFileReceivedAck hash now s st.metadata.fileId).2) := by
  refine ⟨?_, ?_, step_chunk_only_active, ?_, ?_, ?_⟩
  · intro hash now s f rest hq
    unfold Streaming.startNextFileTransfer
    rw [hq]
    dsimp only
    exact ⟨rfl, rfl, by simp⟩
  · intro hash s buffered encryptOk
    exact ⟨activeFileId_streamFileStep s buffered encryptOk,
      activeFileId_bufferLow s encryptOk,
      (activeFileId_pause_resume s).1,
      (activeFileId_pause_resume s).2⟩
  · intro hash now s fid hne
    unfold Streaming.handleFileReceivedAck
    revert hne
    cases hst : s.sendingFileState with
    | none =>
      intro hne
      rfl
    | some st =>
      intro hne
      dsimp only
      rw [if_neg (show ¬ st.metadata.fileId = fid by
            intro h
            exact hne (by simp [Streaming.activeFileId, hst, h]))]
  · intro hash now s st hst hq
    unfold Streaming.handleFileReceivedAck
    rw [hst]
    dsimp only
    rw [if_pos rfl]
    unfold Streaming.startNextFileTransfer
    rw [hq]
  · intro hash now s st f rest hst hq
    unfold Streaming.handleFileReceivedAck
    rw [hst]
    dsimp only
    rw [if_pos rfl]
    unfold Streaming.startNextFileTransfer
    rw [hq]
    dsimp only
    exact ⟨rfl, rfl, by simp⟩

/-- Sender state with "a.bin" active and "empty.txt" queued behind it. -/
def c2Queued : Streaming.SenderState :=
  { filesToSend := [emptyFile], sendingFileState := some c6StReady,
    isPaused := false }

/-- Witness for C2 at concrete states: dequeueing takes the queue head; a
loop iteration preserves the active file; a concretely transmitted chunk
belongs to the active file; an ack for an unknown id is ignored; an ack with
an empty queue emits the terminal success; an ack with "empty.txt" queued
immediately starts it. -/
theorem C2_fifo_ack_driven_witness :
    ((Streaming.startNextFileTransfer sampleHash 7 c2Queued).1.filesToSend = [] ∧
     (Streaming.startNextFileTransfer sampleHash 7 c2Queued).1.sendingFileState =
       some { file := emptyFile, metadata := mkMetadata sampleHash emptyFile 7,
              sentChunksCount := 0, mode := Streaming.LoopMode.ready } ∧
     Effect.wireFileMetadata (mkMetadata sampleHash emptyFile 7) ∈
       (Streaming.startNextFileTransfer sampleHash 7 c2Queued).2) ∧
    Streaming.activeFileId
        (Streaming.step sampleHash c4StreamMid (Streaming.SLabel.streamStep 0 true)).1 =
      Streaming.activeFileId c4StreamMid ∧
    Streaming.activeFileId c4StreamMid = some "a.bin-3-1" ∧
    Streaming.handleFileReceivedAck sampleHash 9 c4StreamMid "nope" =
      (c4StreamMid, []) ∧
    Streaming.handleFileReceivedAck sampleHash 9 c4StreamMid
        c6StReady.metadata.fileId =
      ({ c4StreamMid with sendingFileState := none },
       [Effect.statusSuccess ("Peer confirmed receipt of " ++ c6StReady.file.name ++ "."),
        Effect.fileSent c6StReady.file.name,
        Effect.statusSuccess "All files have been sent successfully!"]) ∧
    ((Streaming.handleFileReceivedAck sampleHash 7 c2Queued
        c6StReady.metadata.fileId).1.filesToSend = [] ∧
     (Streaming.handleFileReceivedAck sampleHash 7 c2Queued
        c6StReady.metadata.fileId).1.sendingFileState =
       some { file := emptyFile, metadata := mkMetadata sampleHash emptyFile 7,
              sentChunksCount := 0, mode := Streaming.LoopMode.ready } ∧
     Effect.wireFileMetadata (mkMetadata sampleHash emptyFile 7) ∈
       (Streaming.handleFileReceivedAck sampleHash 7 c2Queued
          c6StReady.metadata.fileId).2) :=
  ⟨C2_fifo_ack_driven.1 sampleHash 7 c2Queued emptyFile [] rfl,
   (C2_fifo_ack_driven.2.1 sampleHash c4StreamMid 0 true).1,
   C2_fifo_ack_driven.2.2.1 sampleHash c4StreamMid
     (Streaming.SLabel.streamStep 0 true) "a.bin-3-1" 0 [1, 2, 3] (by decide),
   C2_fifo_ack_driven.2.2.2.1 sampleHash 9 c4StreamMid "nope" (by decide),
   C2_fifo_ack_driven.2.2.2.2.1 sampleHash 9 c4StreamMid c6StReady
     (by decide) (by decide),
   C2_fifo_ack_driven.2.2.2.2.2 sampleHash 7 c2Queued c6StReady emptyFile []
     (by decide) (by decide)⟩
